import Mathlib

/-!
Shallow embedding of the snailplate-parser scanning core
(`src/snailplate-parser/src/{span,token,tokenbody,tokenbuf,tokenizer,include_resolver}.rs`)
and proofs settling the frozen specification claims.

Modelling conventions:
* Rust `usize`/`u32` values are modelled as `Nat`.  All subtractions in the
  reachable code paths are non-negative; `Nat` subtraction (truncated at 0)
  coincides with Rust semantics there.
* Bytes are `Nat` (`Vec<u8>` becomes `List Nat`).
* `Vec` used as a stack (`state_snap`) is modelled as a `List` whose head is
  the stack top (`push` = cons, `pop` = head).  `Vec`s that are indexed
  (`region`) or only appended to (`region_meta`) keep source order, with
  `push` appending at the end.
* Memory is unbounded: `try_reserve` always succeeds, so the `NoMemory`
  branches are dead in the model (they are kept where they shape control
  flow).  The crate is compiled with default features: the `#[cfg(feature =
  "tokenbuf_push_guard")]` guard is off, the
  `#[cfg(not(feature = "unguarded_tokenizer_integrity"))]` guards are on.
* Rust panics (`panic!`, `unwrap`, `expect`) in the IncludeResolver are
  modelled by the `PResult.panicked` outcome.  The filesystem is a function
  `List Nat → Option (List Nat)` from path bytes to file bytes; `file_read`'s
  `str::from_utf8` conversion is modelled as the identity on the byte list
  (UTF-8 validity is not modelled; no claim depends on it).
* The enum declarations for `TokenBody`/`ParseError` in the snapshot are
  stale relative to their users; the variants below are the union of the
  declared ones and those constructed/matched by `tokenizer.rs` and
  `include_resolver.rs` (`WhiteSpaceLd/Tr/Whole`, `UnescapedAt`,
  `UnwantedWhiteSpace`, `InstructionNotOpen`, `InstructionMissingArgs`,
  `Component::IncludeResolver`).
* `Source.line` values are the literal `line!()` line numbers of the
  corresponding construction sites in the Rust sources.
-/

namespace SnailSpec

/-- A byte of template source. -/
abbrev Byte := Nat

/-- `span.rs` `Span`: a slice of a region. -/
structure Span where
  index : Nat
  pos_region : Nat
  pos_line : Nat
  pos_zero : Nat
  line : Nat
  length : Nat
deriving DecidableEq

/-- Helper constructor, fields in declaration order:
index, pos_region, pos_line, pos_zero, line, length. -/
def mkSpan (index pos_region pos_line pos_zero line length : Nat) : Span :=
  ⟨index, pos_region, pos_line, pos_zero, line, length⟩

/-- `parse_error.rs` `Component`. -/
inductive Component where
  | Tokenizer
  | TokenBuf
  | IncludeResolver
deriving DecidableEq

/-- `parse_error.rs` `Source`. -/
structure Source where
  pos_zero : Nat
  component : Component
  line : Nat
  code : Nat
deriving DecidableEq

/-- Helper constructor, fields in order: pos_zero, component, line, code. -/
def mkSource (pos_zero : Nat) (component : Component) (line code : Nat) : Source :=
  ⟨pos_zero, component, line, code⟩

/-- `parse_error.rs` `ParseError` (variant set as used by the tokenizer and
resolver sources; every diagnostic variant carries a `Source`, `NoInput` is
constructed without one in `tokenizer/iterator.rs`). -/
inductive ParseError where
  | NoMemory (s : Source)
  | InternalError (s : Source)
  | InstructionError (s : Source)
  | OpenInstruction (s : Source)
  | InstructionNotOpen (s : Source)
  | InstructionMissingArgs (s : Source)
  | UnwantedWhiteSpace (s : Source)
  | NoInput
  | None
deriving DecidableEq

/-- `tokenbody.rs` `TokenBody` (union of declared and used variants). -/
inductive TokenBody where
  | Include (s : Span)
  | TagOpenStart (s : Span)
  | TagOpenEnd (s : Span)
  | TagCloseStart (s : Span)
  | TagClose (s : Span)
  | EscapedAt (s : Span)
  | UnescapedAt (s : Span)
  | Defered (s : Span)
  | OpenParen (s : Span)
  | CloseParen (s : Span)
  | Lt (s : Span)
  | Gt (s : Span)
  | WhiteSpace (s : Span)
  | WhiteSpaceLd (s : Span)
  | WhiteSpaceTr (s : Span)
  | WhiteSpaceWhole (s : Span)
  | Newline (s : Span)
  | FilePath (s : Span)
deriving DecidableEq

/-- `tokenbody.rs` `TokenBody::span_clone`: every body carries a span. -/
def TokenBody.span_clone : TokenBody → Span
  | .Include s => s
  | .TagOpenStart s => s
  | .TagOpenEnd s => s
  | .TagCloseStart s => s
  | .TagClose s => s
  | .EscapedAt s => s
  | .UnescapedAt s => s
  | .Defered s => s
  | .OpenParen s => s
  | .CloseParen s => s
  | .Lt s => s
  | .Gt s => s
  | .WhiteSpace s => s
  | .WhiteSpaceLd s => s
  | .WhiteSpaceTr s => s
  | .WhiteSpaceWhole s => s
  | .Newline s => s
  | .FilePath s => s

/-- `token.rs` `Token`. -/
inductive Token where
  | Real (b : TokenBody)
  | Phantom (b : TokenBody)
  | Fatal (e : ParseError)
  | Error (e : ParseError)
  | Warning (e : ParseError)
  | StateChange
deriving DecidableEq

/-- `token.rs` `Token::span_clone`: only `Real`/`Phantom` tokens carry a span,
diagnostics and `StateChange` do not. -/
def Token.span_clone : Token → Option Span
  | .Real b => some b.span_clone
  | .Phantom b => some b.span_clone
  | .Fatal _ => none
  | .Error _ => none
  | .Warning _ => none
  | .StateChange => none

/-- Whether a token is a `Fatal` diagnostic. -/
def Token.isFatal : Token → Bool
  | .Fatal _ => true
  | _ => false

/-- Whether a token is a `Real` (content) token. -/
def Token.isReal : Token → Bool
  | .Real _ => true
  | _ => false

/-! ## TokenBuf (`tokenbuf.rs`) -/

/-- `tokenbuf.rs` `TokenBuf`: a Vec plus a count of not-yet-consumed tokens. -/
structure TokenBuf where
  num_tokens : Nat
  buf : List Token
deriving DecidableEq

/-- `TokenBuf::new`. -/
def TokenBuf.new : TokenBuf := ⟨0, []⟩

/-- `TokenBuf::append`. Memory reservation always succeeds in the model and
the `tokenbuf_push_guard` feature is off, so the append always succeeds; the
`Except` shape is kept because callers branch on it. -/
def TokenBuf.append (tb : TokenBuf) (token : Token) : Except Token TokenBuf :=
  .ok ⟨tb.num_tokens + 1, tb.buf ++ [token]⟩

/-- `TokenBuf::popleft`. -/
def TokenBuf.popleft (tb : TokenBuf) : TokenBuf × Except Token (Option Token) :=
  if tb.num_tokens < 1 then
    (tb, .ok none)
  else
    let num_tokens := tb.num_tokens
    let num_in_buf := tb.buf.length
    if num_in_buf < num_tokens then
      (⟨0, []⟩, .error (.Fatal (.InternalError (mkSource 0 .TokenBuf 188 1))))
    else
      let idx_item := num_in_buf - num_tokens
      let num_tokens' := num_tokens - 1
      match tb.buf[idx_item]? with
      | some tok =>
        if num_tokens' < 1 then
          (⟨num_tokens', []⟩, .ok (some tok))
        else
          (⟨num_tokens', tb.buf⟩, .ok (some tok))
      | none =>
        (⟨0, []⟩, .error (.Fatal (.InternalError (mkSource 0 .TokenBuf 225 2))))

/-- `TokenBuf::buf_len`. -/
def TokenBuf.buf_len (tb : TokenBuf) : Nat := tb.buf.length

/-! ## Tokenizer (`tokenizer.rs`) -/

/-- `tokenizer.rs` `TokenizerState`. -/
inductive TokenizerState where
  | ExpectInput
  | ExpectDefered
  | ExpectInstructionClose
  | Failed
deriving DecidableEq

/-- `tokenizer.rs` `StateSnap` (field order as in the source). -/
structure StateSnap where
  pos_region : Nat
  pos_line : Nat
  line : Nat
  index : Nat
deriving DecidableEq

/-- `tokenizer.rs` `SrcRegionMeta` (filename kept as raw bytes). -/
structure SrcRegionMeta where
  index : Nat
  pos_zero : Nat
  pos_region : Nat
  pos_line : Nat
  line : Nat
  filename : Option (List Byte)
deriving DecidableEq

/-- `tokenizer.rs` `Tokenizer`.  `state_snap` is a stack with the list head as
its top; `region` and `region_meta` keep source order (new entries appended at
the end). -/
structure Tokenizer where
  index : Nat
  pos_zero : Nat
  pos_region : Nat
  pos_line : Nat
  pos_max : Nat
  line : Nat
  state : TokenizerState
  region : List (List Byte)
  tokenbuf : TokenBuf
  cnt_openparen : Nat
  cnt_closeparen : Nat
  state_snap : List StateSnap
  region_meta : List SrcRegionMeta
  parse_error_prev : ParseError
  pos_zero_prev_instr : Nat
deriving DecidableEq

/-- `Tokenizer::new`. -/
def Tokenizer.new : Tokenizer where
  index := 0
  pos_zero := 0
  pos_region := 0
  pos_line := 0
  pos_max := 0
  line := 0
  state := .ExpectInput
  region := []
  tokenbuf := TokenBuf.new
  cnt_openparen := 0
  cnt_closeparen := 0
  state_snap := []
  region_meta := []
  parse_error_prev := .None
  pos_zero_prev_instr := 0

/-- `Tokenizer::tokenbuf_push` (append and enter `Failed` on append error). -/
def Tokenizer.tokenbuf_push (t : Tokenizer) (tok : Token) : Tokenizer × Except Token Unit :=
  match t.tokenbuf.append tok with
  | .ok tb => ({ t with tokenbuf := tb }, .ok ())
  | .error token => ({ t with state := .Failed }, .error token)

/-- `Tokenizer::tokenbuf_consume`. -/
def Tokenizer.tokenbuf_consume (t : Tokenizer) : Tokenizer × Except Token (Option Token) :=
  let (tb, r) := t.tokenbuf.popleft
  match r with
  | .ok s => ({ t with tokenbuf := tb }, .ok s)
  | .error token => ({ t with tokenbuf := tb, state := .Failed }, .error token)

/-- The repeated failure block of `Tokenizer::return_tokenized`: unless
`parse_error_prev` is already `InternalError`, re-enqueue the offending token
and latch `InternalError`; then enter `Failed` and deliver
`Fatal(InternalError)`.  `lineLatch`/`lineFatal` are the two `line!()` values
of the corresponding Rust block. -/
def Tokenizer.latch_fail (t : Tokenizer) (tok : Token) (lineLatch lineFatal : Nat) :
    Tokenizer × Option Token :=
  let t :=
    match t.parse_error_prev with
    | .InternalError _ => t
    | _ =>
      let t := (t.tokenbuf_push tok).1
      { t with parse_error_prev := .InternalError (mkSource t.pos_zero .Tokenizer lineLatch 0) }
  ({ t with state := .Failed },
    some (.Fatal (.InternalError (mkSource t.pos_zero .Tokenizer lineFatal 0))))

/-- Position-advance step of `Tokenizer::return_tokenized`
(`tokenizer.rs:1610-1645`): advance the positions by the span length, then
apply the `Newline`/`Include`/`OpenParen` effects of the delivered token. -/
def Tokenizer.rt_effects (t : Tokenizer) (tok : Token) (span : Span) : Tokenizer :=
  let len_token := span.length
  let t := { t with
    pos_region := span.pos_region + len_token
    pos_zero := span.pos_zero + len_token
    pos_line := span.pos_line + len_token
    line := span.line }
  match tok with
  | .Real body | .Phantom body =>
    match body with
    | .Newline _ => { t with line := span.line + 1, pos_line := 0 }
    | .Include sp =>
      { t with
        state := .ExpectInstructionClose
        cnt_openparen := 0
        cnt_closeparen := 0
        pos_zero_prev_instr := sp.pos_zero }
    | .OpenParen _ => { t with cnt_openparen := t.cnt_openparen + 1 }
    | _ => t
  | _ => t

/-- Region-exhaustion step of `Tokenizer::return_tokenized`
(`tokenizer.rs:1647-1754`): fail if the span overran the region; pop the
snapshot stack (restoring the outer position and decrementing the region
index) when the region is exhausted away from the base region. -/
def Tokenizer.rt_pop (t : Tokenizer) (tok : Token) : Tokenizer × Option Token :=
  if t.pos_max < t.pos_region then
    Tokenizer.latch_fail { t with pos_region := t.pos_max } tok 1662 1672
  else if t.pos_max = t.pos_region then
    if t.index = 0 then
      (t, some tok)
    else
      match t.state_snap with
      | snap :: rest =>
        let t := { t with
          state_snap := rest
          index := t.index - 1
          pos_region := snap.pos_region
          pos_line := snap.pos_line
          line := snap.line }
        let t := { t with pos_max := (t.region.getD t.index []).length }
        if t.index ≠ snap.index then
          t.latch_fail tok 1707 1717
        else
          (t, some tok)
      | [] => t.latch_fail tok 1738 1748
  else
    (t, some tok)

/-- `Tokenizer::return_tokenized` (`tokenizer.rs:1508-1763`), the single
delivery routine: guard the span against the current position, advance
positions and apply token effects (`rt_effects`), detect region overflow and
pop the snapshot stack when the region is exhausted (`rt_pop`). -/
def Tokenizer.return_tokenized (t : Tokenizer) (tok : Token) : Tokenizer × Option Token :=
  match tok.span_clone with
  | none => (t, some tok)
  | some span =>
    if t.index ≠ span.index then
      t.latch_fail tok 1549 1559
    else if t.pos_region ≠ span.pos_region ∨ t.pos_line ≠ span.pos_line ∨
        t.pos_zero ≠ span.pos_zero ∨ t.line ≠ span.line then
      t.latch_fail tok 1593 1603
    else
      (t.rt_effects tok span).rt_pop tok

/-! ### Scanning helpers

The Rust `while pos < pos_max` loops are modelled by structural recursion on
the remaining byte count (`fuel = pos_max - pos`), which makes the functions
reduce definitionally. -/

/-- The byte walk of `Tokenizer::defered_tokenize`: position of the first
`0x0A` or `0x40` byte at or after `pos` (fuel = remaining bytes). -/
def find_special (src : List Byte) : Nat → Nat → Option (Nat × Byte)
  | 0, _ => none
  | fuel + 1, pos =>
    let b := src.getD pos 0
    if b = 0x0A ∨ b = 0x40 then some (pos, b)
    else find_special src fuel (pos + 1)

/-- The byte walk of the free function `tokenizer_line_tokenize`: position of
the first `0x0A` byte at or after `pos`. -/
def find_newline (src : List Byte) : Nat → Nat → Option Nat
  | 0, _ => none
  | fuel + 1, pos =>
    if src.getD pos 0 = 0x0A then some pos
    else find_newline src fuel (pos + 1)

/-- `tokenizer/ident.rs` `Ident`. -/
inductive Ident where
  | Include (s e : Nat)
  | None
deriving DecidableEq

/-- `tokenizer/ident.rs` `ident_match_7`. -/
def ident_match_7 (src : List Byte) (start fin : Nat) : Ident :=
  if src.getD start 0 = 0x69 ∧ src.getD (start + 1) 0 = 0x6E ∧
      src.getD (start + 2) 0 = 0x63 ∧ src.getD (start + 3) 0 = 0x6C ∧
      src.getD (start + 4) 0 = 0x75 ∧ src.getD (start + 5) 0 = 0x64 ∧
      src.getD (start + 6) 0 = 0x65 then
    .Include start fin
  else
    .None

/-- `tokenizer/ident.rs` `ident_match`. -/
def ident_match (src : List Byte) (start fin : Nat) : Ident :=
  if fin < start then .None
  else if fin - start + 1 = 7 then ident_match_7 src start fin
  else .None

/-- Mutable locals of the scanning loop of `Tokenizer::instruction_tokenize`. -/
structure IScan where
  pos : Nat
  line : Nat
  pos_first_char : Nat
  pos_last_char : Nat
  pos_close_paren : Nat
  pos_open_paren : Nat
  pos_first_bad_char : Nat
  pos_last_bad_char : Nat
  pre_ws_start : Nat
  pre_ws_end : Nat
  post_ws_start : Nat
  post_ws_end : Nat
  line_open_paren : Nat
  pos_last_linestart : Nat
deriving DecidableEq

/-- Outcome of the scanning loop of `Tokenizer::instruction_tokenize`: either
the first `(` was reached (the loop returns there) or the region ended. -/
inductive IScanResult where
  | openParen (st : IScan)
  | finished (st : IScan)
deriving DecidableEq

/-- The scanning loop of `Tokenizer::instruction_tokenize`
(`tokenizer.rs:831-923`). -/
def iscan_loop (src : List Byte) (inf : Nat) : Nat → IScan → IScanResult
  | 0, st => .finished st
  | fuel + 1, st =>
    let pos := st.pos
    let b := src.getD pos 0
    if b = 0x0A ∨ b = 0x20 ∨ b = 0x09 then
      let st := if st.pre_ws_start = inf then { st with pre_ws_start := pos } else st
      let st :=
        if st.pos_first_char = inf then { st with pre_ws_end := pos }
        else
          let st := if st.post_ws_start = inf then { st with post_ws_start := pos } else st
          { st with post_ws_end := pos }
      let st :=
        if b = 0x0A then { st with line := st.line + 1, pos_last_linestart := pos + 1 }
        else st
      iscan_loop src inf fuel { st with pos := pos + 1 }
    else if b = 0x28 then
      .openParen { st with pos_open_paren := pos, line_open_paren := st.line }
    else if b = 0x29 then
      iscan_loop src inf fuel { st with pos_close_paren := pos, pos := pos + 1 }
    else if (0x41 ≤ b ∧ b ≤ 0x5A) ∨ (0x61 ≤ b ∧ b ≤ 0x7A) then
      let st := if st.pos_first_char = inf then { st with pos_first_char := pos } else st
      iscan_loop src inf fuel { st with pos_last_char := pos, pos := pos + 1 }
    else
      let st := if st.pos_first_bad_char = inf then { st with pos_first_bad_char := pos } else st
      iscan_loop src inf fuel { st with pos_last_bad_char := pos, pos := pos + 1 }

/-- Mutable locals threaded through `tokenizer_line_tokenize` /
`tokenizer_whitespace_tokenize` (including the token buffer they append to). -/
structure WsState where
  tokenbuf : TokenBuf
  pos : Nat
  pos_prev : Nat
  parsed_wsp : Nat
  pos_line_base : Nat
  line : Nat
deriving DecidableEq

/-- Free function `tokenizer_line_tokenize` (`tokenizer.rs:200-290`):
tokenize one whitespace line into (optional) `WhiteSpace` plus `Newline`.
Returns the updated locals, or the error token if no newline was found. -/
def line_tokenize (index : Nat) (src : List Byte) (pos_end pos_zero_base : Nat)
    (st : WsState) : WsState × Option Token :=
  match find_newline src (pos_end - st.pos) st.pos with
  | some p =>
    let len_wsp := p - st.pos_prev
    let step1 : Except Token TokenBuf :=
      if 0 < len_wsp then
        let wsp_token :=
          if st.pos_line_base = 0 then
            Token.Real (.WhiteSpaceWhole (mkSpan index st.pos_prev st.pos_line_base
              (pos_zero_base + st.parsed_wsp) st.line len_wsp))
          else
            Token.Real (.WhiteSpaceTr (mkSpan index st.pos_prev st.pos_line_base
              (pos_zero_base + st.parsed_wsp) st.line len_wsp))
        st.tokenbuf.append wsp_token
      else
        .ok st.tokenbuf
    match step1 with
    | .error token => (st, some token)
    | .ok tb =>
      match tb.append (Token.Real (.Newline (mkSpan index (st.pos_prev + len_wsp)
          (st.pos_line_base + len_wsp) (pos_zero_base + st.parsed_wsp + len_wsp) st.line 1))) with
      | .error token => ({ st with tokenbuf := tb }, some token)
      | .ok tb =>
        ({ tokenbuf := tb
           pos := p + 1
           pos_prev := p + 1
           parsed_wsp := st.parsed_wsp + len_wsp + 1
           pos_line_base := 0
           line := st.line + 1 }, none)
  | none =>
    (st, some (.Fatal (.InternalError (mkSource pos_end .Tokenizer 286 0))))

/-- The `while num_newlines > 0` loop of `tokenizer_whitespace_tokenize`. -/
def whitespace_lines_loop (index : Nat) (src : List Byte) (pos_end pos_zero_base : Nat) :
    Nat → WsState → WsState × Option Token
  | 0, st => (st, none)
  | n + 1, st =>
    match line_tokenize index src pos_end pos_zero_base st with
    | (st, some tok) => (st, some tok)
    | (st, none) => whitespace_lines_loop index src pos_end pos_zero_base n st

/-- Free function `tokenizer_whitespace_tokenize` (`tokenizer.rs:317-381`). -/
def tokenizer_whitespace_tokenize (tokenbuf : TokenBuf) (index : Nat) (src : List Byte)
    (pos_zero pos_region len_region line_start line_end pos_line len_token : Nat) :
    TokenBuf × Option Token :=
  let num_newlines := line_end - line_start
  let pos_end := pos_region + len_region
  let pos_zero_base := pos_zero + len_token
  let st0 : WsState :=
    ⟨tokenbuf, pos_region, pos_region, 0, pos_line + len_token, line_start⟩
  match whitespace_lines_loop index src pos_end pos_zero_base num_newlines st0 with
  | (st, some tok) => (st.tokenbuf, some tok)
  | (st, none) =>
    if pos_end ≠ st.pos then
      let pos_max := src.length
      let wsp_token :=
        if pos_end < pos_max then
          Token.Real (.WhiteSpaceLd (mkSpan index st.pos st.pos_line_base
            (pos_zero_base + st.parsed_wsp) st.line (pos_end - st.pos)))
        else
          Token.Real (.WhiteSpace (mkSpan index st.pos st.pos_line_base
            (pos_zero_base + st.parsed_wsp) st.line (pos_end - st.pos)))
      match st.tokenbuf.append wsp_token with
      | .error tok => (st.tokenbuf, some tok)
      | .ok tb => (tb, none)
    else
      (st.tokenbuf, none)

/-- `Tokenizer::whitespace_into_tokenbuf` (`tokenizer.rs:698-756`). -/
def Tokenizer.whitespace_into_tokenbuf (t : Tokenizer)
    (index pos_region len_region line_start line_end : Nat) : Tokenizer × Option Token :=
  if len_region < 1 then (t, none)
  else
    let len_token := pos_region - t.pos_region
    if line_start = line_end then
      match t.tokenbuf_push (.Real (.WhiteSpace (mkSpan index pos_region
          (t.pos_line + len_token) (t.pos_zero + len_token) line_start len_region))) with
      | (t, .error token) => (t, some token)
      | (t, .ok _) =>
        match t.tokenbuf_push (.Warning (.UnwantedWhiteSpace
            (mkSource (t.pos_zero + len_token) .Tokenizer 737 2))) with
        | (t, .error token) => (t, some token)
        | (t, .ok _) => (t, none)
    else
      let src := t.region.getD index []
      let (tb, otok) := tokenizer_whitespace_tokenize t.tokenbuf index src t.pos_zero
        pos_region len_region line_start line_end t.pos_line len_token
      ({ t with tokenbuf := tb }, otok)

/-- `Tokenizer::instruction_tokenize_unfinished` (`tokenizer.rs:949-968`):
the run is not a valid instruction, return it whole as `Defered`.  The Rust
function receives many unused diagnostics parameters; only the used ones are
kept. -/
def Tokenizer.instruction_tokenize_unfinished (t : Tokenizer) (pos_start pos_max : Nat) :
    Tokenizer × Option Token :=
  t.return_tokenized (.Real (.Defered
    (mkSpan t.index t.pos_region t.pos_line t.pos_zero t.line (pos_max - pos_start))))

/-- `Tokenizer::instruction_tokenize_bad_paren` (`tokenizer.rs:975-1013`):
`)` seen before `(`; enqueue `Error(InstructionError)` and deliver the `@` as
`UnescapedAt` (unused parameters dropped). -/
def Tokenizer.instruction_tokenize_bad_paren (t : Tokenizer) (pos_start : Nat) :
    Tokenizer × Option Token :=
  let len_left := pos_start - t.pos_region
  let pz := t.pos_zero + len_left
  match t.tokenbuf_push (.Error (.InstructionError (mkSource pz .Tokenizer 1002 0))) with
  | (t, .error token) => (t, some token)
  | (t, .ok _) =>
    t.return_tokenized (.Real (.UnescapedAt
      (mkSpan t.index t.pos_region t.pos_line t.pos_zero t.line 1)))

/-- `Tokenizer::instruction_tokenize_whitespace_before_instruction`
(`tokenizer.rs:1312-1331`): whitespace between `@` and the identifier;
deliver the `@` as `UnescapedAt` (unused parameters dropped). -/
def Tokenizer.instruction_tokenize_whitespace_before_instruction (t : Tokenizer) :
    Tokenizer × Option Token :=
  t.return_tokenized (.Real (.UnescapedAt
    (mkSpan t.index t.pos_region t.pos_line t.pos_zero t.line 1)))

/-- Tail of `Tokenizer::instruction_tokenize_correct_paren_defered` after the
`Include` (and optional `WhiteSpace`) have been buffered: buffer the
`OpenParen`, switch to `ExpectDefered` and deliver the preceding `Defered`. -/
def Tokenizer.correct_paren_defered_finish (t : Tokenizer)
    (pos_start len_defered line_start pos_open_paren line_open_paren
      pos_last_linestart pos_next_span len_to_span : Nat) : Tokenizer × Option Token :=
  let pl := pos_open_paren - pos_last_linestart
  match t.tokenbuf_push (.Real (.OpenParen
      (mkSpan t.index pos_next_span pl (t.pos_zero + len_to_span) line_open_paren 1))) with
  | (t, .error token) => (t, some token)
  | (t, .ok _) =>
    let t := { t with state := .ExpectDefered }
    t.return_tokenized (.Real (.Defered
      (mkSpan t.index pos_start t.pos_line t.pos_zero line_start len_defered)))

/-- `Tokenizer::instruction_tokenize_correct_paren_defered`
(`tokenizer.rs:1122-1238`): a `Defered` run precedes the instruction, buffer
`Include`, optional `WhiteSpace` and `OpenParen`, deliver the `Defered`. -/
def Tokenizer.instruction_tokenize_correct_paren_defered (t : Tokenizer)
    (pos_at pos_start pos_open_paren ident_pos_end line_at line_start
      line_open_paren pos_last_linestart : Nat) : Tokenizer × Option Token :=
  let len_left := pos_start - t.pos_region
  let pz := t.pos_zero + len_left
  if line_at ≠ line_start then
    ({ t with state := .Failed },
      some (.Fatal (.InstructionError (mkSource pz .Tokenizer 1138 0))))
  else if pos_start ≠ t.pos_region then
    ({ t with state := .Failed },
      some (.Fatal (.InstructionError (mkSource pz .Tokenizer 1151 0))))
  else
    let len_defered := pos_at - pos_start
    let pos_next_span := pos_start + len_defered
    let len_ident := ident_pos_end - pos_at + 1
    let len_to_span := len_defered
    match t.tokenbuf_push (.Real (.Include (mkSpan t.index pos_at
        (t.pos_line + len_to_span) (t.pos_zero + len_to_span) line_at len_ident))) with
    | (t, .error token) => (t, some token)
    | (t, .ok _) =>
      let pos_next_span := pos_next_span + len_ident
      let len_to_span := len_to_span + len_ident
      let len_whitespace := pos_open_paren - ident_pos_end - 1
      if 0 < len_whitespace then
        match t.tokenbuf_push (.Real (.WhiteSpace (mkSpan t.index pos_next_span
            (t.pos_line + len_to_span) (t.pos_zero + len_to_span) line_at len_whitespace))) with
        | (t, .error token) => (t, some token)
        | (t, .ok _) =>
          t.correct_paren_defered_finish pos_start len_defered line_start pos_open_paren
            line_open_paren pos_last_linestart (pos_next_span + len_whitespace)
            (len_to_span + len_whitespace)
      else
        t.correct_paren_defered_finish pos_start len_defered line_start pos_open_paren
          line_open_paren pos_last_linestart pos_next_span len_to_span

/-- `Tokenizer::instruction_tokenize_correct_paren_now`
(`tokenizer.rs:1246-1308`): the instruction starts at the current position,
buffer any whitespace and the `OpenParen`, deliver `Include` immediately. -/
def Tokenizer.instruction_tokenize_correct_paren_now (t : Tokenizer)
    (pos_at pos_start pos_open_paren ident_pos_end line_at line_start
      line_open_paren pos_last_linestart : Nat) : Tokenizer × Option Token :=
  if line_at ≠ line_start then
    let len_left := pos_start - t.pos_region
    let pz := t.pos_zero + len_left
    ({ t with state := .Failed },
      some (.Fatal (.InstructionError (mkSource pz .Tokenizer 1266 0))))
  else
    let len_instruction := ident_pos_end - pos_at + 1
    let len_whitespace := pos_open_paren - ident_pos_end - 1
    match t.whitespace_into_tokenbuf t.index (ident_pos_end + 1) len_whitespace
        line_at line_open_paren with
    | (t, some error_token) => (t, some error_token)
    | (t, none) =>
      let pl := pos_open_paren - pos_last_linestart
      match t.tokenbuf_push (.Real (.OpenParen (mkSpan t.index pos_open_paren pl
          (t.pos_zero + len_instruction + len_whitespace) line_open_paren 1))) with
      | (t, .error token) => (t, some token)
      | (t, .ok _) =>
        t.return_tokenized (.Real (.Include
          (mkSpan t.index pos_start t.pos_line t.pos_zero line_at len_instruction)))

/-- `Tokenizer::instruction_tokenize_correct_paren` (`tokenizer.rs:1023-1113`). -/
def Tokenizer.instruction_tokenize_correct_paren (t : Tokenizer)
    (pos_at pos_start pos_first_char pos_last_char line_at line_start
      line_open_paren pos_open_paren pos_last_linestart : Nat) : Tokenizer × Option Token :=
  let len_left := pos_start - t.pos_region
  let pz := t.pos_zero + len_left
  if pos_last_char < pos_first_char then
    ({ t with state := .Failed },
      some (.Fatal (.InstructionError (mkSource pz .Tokenizer 1041 0))))
  else if pos_first_char ≤ pos_at then
    ({ t with state := .Failed },
      some (.Fatal (.InstructionError (mkSource pz .Tokenizer 1052 0))))
  else
    let src := t.region.getD t.index []
    if pos_at + 1 = pos_first_char then
      match ident_match src pos_first_char pos_last_char with
      | .Include _ ident_pos_end =>
        if pos_start < pos_at then
          t.instruction_tokenize_correct_paren_defered pos_at pos_start pos_open_paren
            ident_pos_end line_at line_start line_open_paren pos_last_linestart
        else
          t.instruction_tokenize_correct_paren_now pos_at pos_start pos_open_paren
            ident_pos_end line_at line_start line_open_paren pos_last_linestart
      | .None => (t, none)
    else
      t.instruction_tokenize_whitespace_before_instruction

/-- `Tokenizer::instruction_tokenize` (`tokenizer.rs:764-935`). -/
def Tokenizer.instruction_tokenize (t : Tokenizer)
    (pos_at pos_start pos_max line_at line_start : Nat) : Tokenizer × Option Token :=
  let src := t.region.getD t.index []
  let inf := pos_max + 1
  let st0 : IScan :=
    { pos := pos_at + 1
      line := line_at
      pos_first_char := inf
      pos_last_char := inf
      pos_close_paren := inf
      pos_open_paren := inf
      pos_first_bad_char := inf
      pos_last_bad_char := inf
      pre_ws_start := inf
      pre_ws_end := inf
      post_ws_start := inf
      post_ws_end := inf
      line_open_paren := line_at
      pos_last_linestart := pos_start }
  match iscan_loop src inf (pos_max - (pos_at + 1)) st0 with
  | .openParen st =>
    if st.pos_open_paren < st.pos_close_paren then
      t.instruction_tokenize_correct_paren pos_at pos_start st.pos_first_char
        st.pos_last_char line_at line_start st.line_open_paren st.pos_open_paren
        st.pos_last_linestart
    else
      t.instruction_tokenize_bad_paren pos_start
  | .finished _ =>
    t.instruction_tokenize_unfinished pos_start pos_max

/-- `Tokenizer::defered_tokenize` (`tokenizer.rs:563-647`). -/
def Tokenizer.defered_tokenize (t : Tokenizer) : Tokenizer × Option Token :=
  let src := t.region.getD t.index []
  let pos_start := t.pos_region
  let pos_max := src.length
  let pos_line_start := t.pos_region - t.pos_line
  let pos_token_start := t.pos_region
  let line := t.line
  match find_special src (pos_max - pos_start) pos_start with
  | some (pos, b) =>
    if b = 0x0A then
      let pos_in_line := pos_token_start - pos_line_start
      let len_defered := pos - pos_token_start
      let len_prev_token := pos_token_start - t.pos_region
      match t.tokenbuf.append (.Real (.Newline (mkSpan t.index pos
          (pos_in_line + len_defered) (t.pos_zero + len_prev_token + len_defered) line 1))) with
      | .error token => (t, some token)
      | .ok tb =>
        let t := { t with tokenbuf := tb }
        t.return_tokenized (.Real (.Defered (mkSpan t.index pos_token_start pos_in_line
          (t.pos_zero + len_prev_token) line len_defered)))
    else
      t.instruction_tokenize pos pos_start pos_max line line
  | none =>
    if pos_start < pos_max then
      let len_defered := pos_max - pos_start
      t.return_tokenized (.Real (.Defered
        (mkSpan t.index pos_start t.pos_line t.pos_zero line len_defered)))
    else
      (t, none)

/-- Mutable locals of the loop in `Tokenizer::tokenize_instruction_args`. -/
structure ArgsSt where
  pos_line_start : Nat
  pos_token_start : Nat
  line : Nat
  pos : Nat
deriving DecidableEq

/-- Tail of `Tokenizer::tokenize_instruction_args` after the leftover
`Defered` was handled: enqueue `Error(OpenInstruction)` carrying the
instruction's recorded offset, switch to `ExpectDefered`, emit `StateChange`. -/
def Tokenizer.args_end_error (t : Tokenizer) : Tokenizer × Option Token :=
  match t.tokenbuf_push (.Error (.OpenInstruction
      (mkSource t.pos_zero_prev_instr .Tokenizer 1487 0))) with
  | (t, .error token) => (t, some token)
  | (t, .ok _) => ({ t with state := .ExpectDefered }, some .StateChange)

/-- End-of-region code of `Tokenizer::tokenize_instruction_args`
(`tokenizer.rs:1459-1494`): the region ended before balancing. -/
def Tokenizer.args_end (t : Tokenizer) (st : ArgsSt) : Tokenizer × Option Token :=
  if st.pos_token_start < st.pos then
    let pos_in_line := st.pos_token_start - st.pos_line_start
    let len_prev_token := st.pos_token_start - t.pos_region
    match t.tokenbuf_push (.Real (.Defered (mkSpan t.index st.pos_token_start pos_in_line
        (t.pos_zero + len_prev_token) st.line (st.pos - st.pos_token_start)))) with
    | (t, .error token) => (t, some token)
    | (t, .ok _) => t.args_end_error
  else
    t.args_end_error

/-- The byte loop of `Tokenizer::tokenize_instruction_args`
(`tokenizer.rs:1352-1457`). -/
def Tokenizer.args_loop (t : Tokenizer) (src : List Byte) : Nat → ArgsSt → Tokenizer × Option Token
  | 0, st => t.args_end st
  | fuel + 1, st =>
    let pos := st.pos
    let b := src.getD pos 0
    if b = 0x0A then
      let pos_in_line := st.pos_token_start - st.pos_line_start
      let len_defered := pos - st.pos_token_start
      let len_prev_token := st.pos_token_start - t.pos_region
      match t.tokenbuf.append (.Real (.Defered (mkSpan t.index st.pos_token_start pos_in_line
          (t.pos_zero + len_prev_token) st.line len_defered))) with
      | .error token => (t, some token)
      | .ok tb =>
        let t := { t with tokenbuf := tb }
        match t.tokenbuf.append (.Real (.Newline (mkSpan t.index pos
            (pos_in_line + len_defered) (t.pos_zero + len_prev_token + len_defered) st.line 1))) with
        | .error token => (t, some token)
        | .ok tb =>
          let t := { t with tokenbuf := tb }
          t.args_loop src fuel ⟨pos + 1, pos + 1, st.line + 1, pos + 1⟩
    else if b = 0x28 then
      Tokenizer.args_loop { t with cnt_openparen := t.cnt_openparen + 1 } src fuel
        { st with pos := pos + 1 }
    else if b = 0x29 then
      let t := { t with cnt_closeparen := t.cnt_closeparen + 1 }
      if t.cnt_closeparen = t.cnt_openparen then
        let pos_in_line := st.pos_token_start - st.pos_line_start
        let len_defered := pos - st.pos_token_start
        let len_prev_token := st.pos_token_start - t.pos_region
        let t := { t with state := .ExpectDefered }
        if 0 < len_defered then
          match t.tokenbuf_push (.Real (.Defered (mkSpan t.index st.pos_token_start
              pos_in_line (t.pos_zero + len_prev_token) st.line len_defered))) with
          | (t, .error token) => (t, some token)
          | (t, .ok _) =>
            match t.tokenbuf_push (.Real (.CloseParen (mkSpan t.index pos
                (pos_in_line + len_defered) (t.pos_zero + len_prev_token + len_defered)
                st.line 1))) with
            | (t, .error token) => (t, some token)
            | (t, .ok _) => (t, some .StateChange)
        else
          t.return_tokenized (.Real (.CloseParen
            (mkSpan t.index pos pos_in_line t.pos_zero st.line 1)))
      else
        t.args_loop src fuel { st with pos := pos + 1 }
    else
      t.args_loop src fuel { st with pos := pos + 1 }

/-- `Tokenizer::tokenize_instruction_args` (`tokenizer.rs:1341-1495`). -/
def Tokenizer.tokenize_instruction_args (t : Tokenizer) : Tokenizer × Option Token :=
  let src := t.region.getD t.index []
  let pos_max := src.length
  t.args_loop src (pos_max - t.pos_region)
    ⟨t.pos_region - t.pos_line, t.pos_region, t.line, t.pos_region⟩

/-- `Tokenizer::src_push` (`tokenizer.rs:458-559`).  The `try_reserve` calls
always succeed in the model, so the `NoMemory` error branches are dead. -/
def Tokenizer.src_push (t : Tokenizer) (filename : Option (List Byte)) (buf : List Byte) :
    Tokenizer × Except Token (Option Token) :=
  let t := { t with state_snap :=
    (⟨t.pos_region, t.pos_line, t.line, t.index⟩ : StateSnap) :: t.state_snap }
  let t := { t with region_meta := t.region_meta ++
    [(⟨t.index, t.pos_zero, t.pos_region, t.pos_line, t.line, filename⟩ : SrcRegionMeta)] }
  let t := { t with pos_max := buf.length }
  let t := { t with region := t.region ++ [buf] }
  let t := { t with
    index := t.region.length - 1
    pos_region := 0
    pos_line := 0
    line := 0 }
  let t :=
    match t.state with
    | .ExpectInput => { t with state := .ExpectDefered }
    | _ => t
  (t, .ok none)

/-- Modelled from the spec: `Tokenizer::state_set` is called by the resolver
(`include_resolver.rs:437`) but its definition is not under `src/`; per the
spec (§4.3, the `ExpectCloseParen` step switches the scanner's mode) it sets
the scanner state. -/
def Tokenizer.state_set (t : Tokenizer) (s : TokenizerState) : Tokenizer :=
  { t with state := s }

/-- `Tokenizer::span_slice` (`tokenizer.rs:1772-1797`): pure read resolving a
span to its bytes. -/
def Tokenizer.span_slice (t : Tokenizer) (span : Span) : Option (List Byte) :=
  match t.state with
  | .ExpectInput => none
  | _ =>
    if t.region.length - 1 < span.index then none
    else
      let src := t.region.getD span.index []
      let inf := src.length + 1
      if inf ≤ span.pos_region + span.length then none
      else some ((src.drop span.pos_region).take span.length)

/-- The state dispatch of `<Tokenizer as Iterator>::next`
(`tokenizer/iterator.rs:52-79`). -/
def Tokenizer.nextDispatch (t : Tokenizer) : Tokenizer × Option Token :=
  match t.state with
  | .ExpectDefered => t.defered_tokenize
  | .ExpectInstructionClose => t.tokenize_instruction_args
  | .Failed => (t, none)
  | .ExpectInput =>
    match t.parse_error_prev with
    | .NoInput => (t, none)
    | _ => ({ t with parse_error_prev := .NoInput }, some (.Error .NoInput))

/-- `<Tokenizer as Iterator>::next` (`tokenizer/iterator.rs:16-80`): deliver a
buffered token through `return_tokenized` if one is pending, otherwise
dispatch on the scanner state. -/
def Tokenizer.nextToken (t : Tokenizer) : Tokenizer × Option Token :=
  if 0 < t.tokenbuf.num_tokens then
    match t.tokenbuf_consume with
    | (t, .ok (some tok)) => t.return_tokenized tok
    | (t, .ok none) => t.nextDispatch
    | (t, .error etok) => (t, some etok)
  else
    t.nextDispatch

/-- Pull up to `n` tokens from the tokenizer, stopping at the first `none`
(mirrors a caller iterating the `Iterator`). -/
def Tokenizer.runTokens : Nat → Tokenizer → List Token
  | 0, _ => []
  | n + 1, t =>
    match t.nextToken with
    | (_, none) => []
    | (t', some tok) => tok :: Tokenizer.runTokens n t'

/-- The tokenizer state after `n` iterator steps. -/
def Tokenizer.iterate : Nat → Tokenizer → Tokenizer
  | 0, t => t
  | n + 1, t => Tokenizer.iterate n t.nextToken.1

/-- Consecutive `src_push` calls (the setup of spec §8 invariant 6). -/
def Tokenizer.pushAll (t : Tokenizer) : List (List Byte) → Tokenizer
  | [] => t
  | b :: rest => Tokenizer.pushAll (t.src_push none b).1 rest

/-! ## IncludeResolver (`include_resolver.rs`)

Resolver operations can reach Rust panics (`panic!`, `unwrap`, `expect`);
those outcomes are modelled by `PResult.panicked` carrying the panic message.
The filesystem is a function from path bytes to file bytes (`none` = the file
cannot be read). -/

/-- Outcome of a resolver operation: a value, or a Rust panic. -/
inductive PResult (α : Type) where
  | ok (a : α)
  | panicked (msg : String)
deriving DecidableEq

/-- The filesystem seen by `IncludeResolver::file_read`. -/
abbrev Fs := List Byte → Option (List Byte)

/-- `include_resolver.rs` `IncludeResolverState`. -/
inductive IncludeResolverState where
  | Passthrough
  | ResolveInclude
  | Failed
deriving DecidableEq

/-- `include_resolver.rs` `IncludeResolverSubState`. -/
inductive IncludeResolverSubState where
  | Uninitialized
  | ExpectOpenParen
  | ExpectPath
  | ExpectCloseParen
deriving DecidableEq

/-- `include_resolver.rs` `IncludeResult`. -/
inductive IncludeResult where
  | Progress (t : Token)
  | Finalized (t : Token)
  | Failed (t : Token)
deriving DecidableEq

/-- `include_resolver.rs` `IncludeResolver` (root_dir kept as raw bytes). -/
structure IncludeResolver where
  tokenizer : Tokenizer
  state : IncludeResolverState
  substate : IncludeResolverSubState
  tokenbuf : TokenBuf
  batchbuf : TokenBuf
  tokenspan_file : Option Span
  root_dir : Option (List Byte)
  include_pos_zero : Option Nat
deriving DecidableEq

/-- `IncludeResolver::new`. -/
def IncludeResolver.new : IncludeResolver where
  tokenizer := Tokenizer.new
  state := .Passthrough
  substate := .Uninitialized
  tokenbuf := TokenBuf.new
  batchbuf := TokenBuf.new
  tokenspan_file := none
  root_dir := none
  include_pos_zero := none

/-- `IncludeResolver::template_root_dir_set`. -/
def IncludeResolver.template_root_dir_set (r : IncludeResolver) (dir : List Byte) :
    IncludeResolver :=
  { r with root_dir := some dir }

/-- `IncludeResolver::file_read` (`include_resolver.rs:142-176`).  The source
panics when `root_dir` is unset (`panic!("must have root dir")`) and when the
file cannot be read (`fs::metadata(..).unwrap()` / `File::open(..).expect` /
`read_to_end(..).expect`); `str::from_utf8(..)` is not involved here.  The
three filesystem failure points are collapsed into one `panicked` outcome. -/
def IncludeResolver.file_read (fs : Fs) (r : IncludeResolver) (filename : List Byte) :
    PResult (IncludeResolver × Except Token Unit) :=
  match r.root_dir with
  | none => .panicked "must have root dir"
  | some dir =>
    let fn_path := dir ++ [0x2F] ++ filename
    match fs fn_path with
    | none => .panicked "unable to open file"
    | some bytes =>
      match r.tokenizer.src_push (some filename) bytes with
      | (t, .error token) => .ok ({ r with tokenizer := t }, .error token)
      | (t, .ok _) => .ok ({ r with tokenizer := t }, .ok ())

/-- `IncludeResolver::next_passthrough` (`include_resolver.rs:180-226`). -/
def IncludeResolver.next_passthrough (r : IncludeResolver) :
    IncludeResolver × Option Token :=
  let (t, otok) := r.tokenizer.nextToken
  let r := { r with tokenizer := t }
  match otok with
  | none => (r, none)
  | some token =>
    match token with
    | .Real body =>
      match body with
      | .Include span =>
        let r := { r with
          state := .ResolveInclude
          substate := .ExpectOpenParen
          include_pos_zero := some span.pos_zero }
        match r.batchbuf.append (.Phantom (.Include span)) with
        | .error etoken => ({ r with state := .Failed }, some etoken)
        | .ok bb => ({ r with batchbuf := bb }, some .StateChange)
      | tok => (r, some (.Real tok))
    | tok => (r, some tok)

/-- `IncludeResolver::next_resolve_include_expect_open_paren`
(`include_resolver.rs:235-320`). -/
def IncludeResolver.next_resolve_include_expect_open_paren (r : IncludeResolver) :
    IncludeResolver × IncludeResult :=
  let (t, otok) := r.tokenizer.nextToken
  let r := { r with tokenizer := t }
  match otok with
  | none =>
    (r, .Failed (.Error (.InstructionNotOpen
      (mkSource (r.include_pos_zero.getD 0) .IncludeResolver 252 1))))
  | some token =>
    match token with
    | .Real body =>
      match body with
      | .OpenParen sp =>
        ({ r with substate := .ExpectPath }, .Progress (.Real (.OpenParen sp)))
      | .WhiteSpace sp =>
        (r, .Progress (.Real (.WhiteSpace sp)))
      | tok =>
        ({ r with state := .Passthrough, substate := .Uninitialized },
          .Failed (.Real tok))
    | .Phantom b => (r, .Progress (.Phantom b))
    | .StateChange => (r, .Progress .StateChange)
    | .Fatal e => (r, .Failed (.Fatal e))
    | .Error e => (r, .Failed (.Error e))
    | .Warning e => (r, .Progress (.Warning e))

/-- `IncludeResolver::next_resolve_include_expect_path`
(`include_resolver.rs:330-393`).  Any `Real` token other than `Defered`
reaches `panic!("not impl")` in the source. -/
def IncludeResolver.next_resolve_include_expect_path (r : IncludeResolver) :
    PResult (IncludeResolver × IncludeResult) :=
  let (t, otok) := r.tokenizer.nextToken
  let r := { r with tokenizer := t }
  match otok with
  | none =>
    .ok (r, .Failed (.Error (.InstructionMissingArgs
      (mkSource (r.include_pos_zero.getD 0) .IncludeResolver 346 2))))
  | some token =>
    match token with
    | .Real body =>
      match body with
      | .Defered span =>
        .ok ({ r with substate := .ExpectCloseParen, tokenspan_file := some span },
          .Progress (.Real (.Defered span)))
      | _ => .panicked "not impl"
    | .Phantom b => .ok (r, .Progress (.Phantom b))
    | .StateChange => .ok (r, .Progress .StateChange)
    | .Fatal e => .ok (r, .Failed (.Fatal e))
    | .Error e => .ok (r, .Failed (.Error e))
    | .Warning e => .ok (r, .Progress (.Warning e))

/-- `IncludeResolver::next_resolve_include_expect_close_paren`
(`include_resolver.rs:403-563`).  A failing `file_read` is logged and
ignored (the batch still finalizes); `str::from_utf8(..).unwrap()` is
modelled as the identity on the slice bytes. -/
def IncludeResolver.next_resolve_include_expect_close_paren (fs : Fs)
    (r : IncludeResolver) : PResult (IncludeResolver × IncludeResult) :=
  let (t, otok) := r.tokenizer.nextToken
  let r := { r with tokenizer := t }
  match otok with
  | none =>
    .ok (r, .Failed (.Error (.OpenInstruction
      (mkSource (r.include_pos_zero.getD 0) .IncludeResolver 420 3))))
  | some token =>
    match token with
    | .Real body =>
      match body with
      | .CloseParen sp =>
        match r.tokenspan_file with
        | some span =>
          let r := { r with tokenspan_file := none }
          let r := { r with tokenizer := r.tokenizer.state_set .ExpectDefered }
          match r.tokenizer.span_slice span with
          | some slice =>
            match r.file_read fs slice with
            | .panicked msg => .panicked msg
            | .ok (r, _) =>
              .ok ({ r with substate := .Uninitialized, state := .Passthrough },
                .Finalized (.Real (.CloseParen sp)))
          | none =>
            match r.batchbuf.append (.Real (.CloseParen sp)) with
            | .error etoken => .ok ({ r with state := .Failed }, .Failed etoken)
            | .ok bb =>
              .ok ({ r with batchbuf := bb }, .Failed (.Error (.InternalError
                (mkSource (r.include_pos_zero.getD 0) .IncludeResolver 475 4))))
        | none =>
          let r := { r with state := .Passthrough, substate := .Uninitialized }
          match r.batchbuf.append (.Real (.CloseParen sp)) with
          | .error etoken => .ok ({ r with state := .Failed }, .Failed etoken)
          | .ok bb =>
            .ok ({ r with batchbuf := bb }, .Failed (.Error (.InstructionMissingArgs
              (mkSource (r.include_pos_zero.getD 0) .IncludeResolver 517 5))))
      | tok =>
        .ok ({ r with state := .Passthrough, substate := .Uninitialized },
          .Failed (.Real tok))
    | .Phantom b => .ok (r, .Progress (.Phantom b))
    | .StateChange => .ok (r, .Progress .StateChange)
    | .Fatal e => .ok (r, .Failed (.Fatal e))
    | .Error e => .ok (r, .Failed (.Error e))
    | .Warning e => .ok (r, .Progress (.Warning e))

/-- `IncludeResolver::next_resolve_include_by_substate`
(`include_resolver.rs:571-591`); `Uninitialized` reaches
`panic!("Always should be initialized!")`. -/
def IncludeResolver.next_resolve_include_by_substate (fs : Fs) (r : IncludeResolver) :
    PResult (IncludeResolver × IncludeResult) :=
  match r.substate with
  | .ExpectOpenParen => .ok r.next_resolve_include_expect_open_paren
  | .ExpectPath => r.next_resolve_include_expect_path
  | .ExpectCloseParen => IncludeResolver.next_resolve_include_expect_close_paren fs r
  | .Uninitialized => .panicked "Always should be initialized!"

/-- The drain loop of `IncludeResolver::next_resolve_include_finalized`
(`include_resolver.rs:627-693`): pop the batch; the first non-`StateChange`
token becomes the deliverable (`Real` retagged to `Phantom`), every later
token is appended to the delivery buffer (`Real` retagged to `Phantom`,
diagnostics unchanged, `StateChange` dropped).  `Sum.inr` is the early-return
of the `Err` branch.  Fuel `num_tokens + 1` always reaches the natural stop;
the fuel-0 branch is unreachable. -/
def IncludeResolver.finalize_loop :
    Nat → IncludeResolver → Option Token → IncludeResolver × (Option Token ⊕ Token)
  | 0, r, firstitem => (r, .inl firstitem)
  | fuel + 1, r, firstitem =>
    let (bb, res) := r.batchbuf.popleft
    let r := { r with batchbuf := bb }
    match res with
    | .ok none => (r, .inl firstitem)
    | .ok (some tok) =>
      match firstitem with
      | some _ =>
        match tok with
        | .Real tbody =>
          match r.tokenbuf.append (.Phantom tbody) with
          | .error etok => ({ r with state := .Failed }, .inr etok)
          | .ok tb => finalize_loop fuel { r with tokenbuf := tb } firstitem
        | .StateChange => finalize_loop fuel r firstitem
        | p =>
          match r.tokenbuf.append p with
          | .error etok => ({ r with state := .Failed }, .inr etok)
          | .ok tb => finalize_loop fuel { r with tokenbuf := tb } firstitem
      | none =>
        match tok with
        | .Real tbody => finalize_loop fuel r (some (.Phantom tbody))
        | .StateChange => finalize_loop fuel r none
        | p => finalize_loop fuel r (some p)
    | .error tok => ({ r with state := .Failed }, .inr tok)

/-- `IncludeResolver::next_resolve_include_finalized`
(`include_resolver.rs:600-711`). -/
def IncludeResolver.next_resolve_include_finalized (r : IncludeResolver) :
    IncludeResolver × Option Token :=
  let pos_zero := r.include_pos_zero.getD 0
  let r := { r with include_pos_zero := none }
  if r.batchbuf.buf_len < 1 then
    ({ r with state := .Failed },
      some (.Fatal (.InternalError (mkSource pos_zero .IncludeResolver 620 7))))
  else
    match IncludeResolver.finalize_loop (r.batchbuf.num_tokens + 1) r none with
    | (r, .inr tok) => (r, some tok)
    | (r, .inl (some tok)) => (r, some tok)
    | (r, .inl none) =>
      ({ r with state := .Failed },
        some (.Fatal (.InternalError (mkSource pos_zero .IncludeResolver 707 6))))

/-- The collection loop of `IncludeResolver::next_resolve_include`
(`include_resolver.rs:740-805`): pull via the substate handler until the batch
is `Finalized` (commit it) or `Failed` (the Rust `BreakReason::Failed` branch
returns `None`, leaving the batch in `batchbuf` — the `TODO: return Real
tokens on error as-is` is not implemented).  The fuel-0 branch is never
reached in the concrete runs proved about. -/
def IncludeResolver.next_resolve_include_loop (fs : Fs) :
    Nat → IncludeResolver → PResult (IncludeResolver × Option Token)
  | 0, _ => .panicked "model: loop fuel exhausted"
  | fuel + 1, r =>
    match IncludeResolver.next_resolve_include_by_substate fs r with
    | .panicked msg => .panicked msg
    | .ok (r, .Progress token) =>
      match token with
      | .StateChange => next_resolve_include_loop fs fuel r
      | _ =>
        match r.batchbuf.append token with
        | .error e => .ok ({ r with state := .Failed }, some e)
        | .ok bb => next_resolve_include_loop fs fuel { r with batchbuf := bb }
    | .ok (r, .Finalized token) =>
      match token with
      | .StateChange => .ok r.next_resolve_include_finalized
      | _ =>
        match r.batchbuf.append token with
        | .error e => .ok ({ r with state := .Failed }, some e)
        | .ok bb =>
          .ok (IncludeResolver.next_resolve_include_finalized { r with batchbuf := bb })
    | .ok (r, .Failed token) =>
      match token with
      | .StateChange => .ok (r, none)
      | _ =>
        match r.batchbuf.append token with
        | .error e => .ok ({ r with state := .Failed }, some e)
        | .ok bb => .ok ({ r with batchbuf := bb }, none)

/-- `IncludeResolver::next_resolve_include` (`include_resolver.rs:724-806`),
including its entry integrity guard `panic!("batchbuf should be empty!")`. -/
def IncludeResolver.next_resolve_include (fs : Fs) (fuel : Nat) (r : IncludeResolver) :
    PResult (IncludeResolver × Option Token) :=
  if r.batchbuf.buf_len ≠ 1 then .panicked "batchbuf should be empty!"
  else IncludeResolver.next_resolve_include_loop fs fuel r

/-- `<IncludeResolver as Iterator>::next` (`include_resolver/iterator.rs`). -/
def IncludeResolver.nextToken (fs : Fs) (fuel : Nat) (r : IncludeResolver) :
    PResult (IncludeResolver × Option Token) :=
  let (tb, res) := r.tokenbuf.popleft
  let r := { r with tokenbuf := tb }
  match res with
  | .ok (some tok) => .ok (r, some tok)
  | .error tok => .ok (r, some tok)
  | .ok none =>
    match r.state with
    | .Passthrough => .ok r.next_passthrough
    | .ResolveInclude => IncludeResolver.next_resolve_include fs fuel r
    | .Failed => .ok (r, none)

/-! ## Derived notions used by the claims -/

/-- Whether a token is the `StateChange` marker (callers ignore those). -/
def Token.isStateChange : Token → Bool
  | .StateChange => true
  | _ => false

/-- The `Real(body)` → `Phantom(body)` rewrite the resolver applies to a
finalized batch ("consume-but-preserve-shape", spec §9). -/
def Token.retag : Token → Token
  | .Real b => .Phantom b
  | t => t

/-- The spans of the content-bearing (span-carrying) tokens of a stream. -/
def spansOf (ts : List Token) : List Span := ts.filterMap Token.span_clone

/-- No `Fatal` token occurs in the stream. -/
def noFatal (ts : List Token) : Prop := ∀ tok ∈ ts, tok.isFatal = false

instance (ts : List Token) : Decidable (noFatal ts) :=
  inferInstanceAs (Decidable (∀ tok ∈ ts, tok.isFatal = false))

instance : DecidableEq (Except Token Unit) := fun a b =>
  match a, b with
  | .ok x, .ok y => decidable_of_iff (x = y) (by constructor <;> (intro h; cases h; rfl))
  | .error x, .error y => decidable_of_iff (x = y) (by constructor <;> (intro h; cases h; rfl))
  | .ok _, .error _ => .isFalse (by intro h; cases h)
  | .error _, .ok _ => .isFalse (by intro h; cases h)

/-- The offsets of a span list are contiguous starting from `p`: each span
starts where the previous one ended (`pos_zero` plus `length`). -/
def contiguousFrom : Nat → List Span → Prop
  | _, [] => True
  | p, sp :: rest => sp.pos_zero = p ∧ contiguousFrom (sp.pos_zero + sp.length) rest

/-- A filesystem with no readable files. -/
def fsEmpty : Fs := fun _ => none

/-- `"@include("` as bytes. -/
def bytesIncOpen : List Byte := [0x40, 0x69, 0x6E, 0x63, 0x6C, 0x75, 0x64, 0x65, 0x28]

/-- `"@include()"` as bytes. -/
def bytesIncClosed : List Byte := bytesIncOpen ++ [0x29]

/-- A sequence of `TokenBuf::append` calls on `tb`. -/
def TokenBuf.appendAll (tb : TokenBuf) : List Token → TokenBuf
  | [] => tb
  | tok :: rest =>
    match tb.append tok with
    | .ok tb' => TokenBuf.appendAll tb' rest
    | .error _ => tb

/-- `fuel` `TokenBuf::popleft` calls, collecting the returned tokens and
stopping at the first empty or failing pop. -/
def TokenBuf.drainAll (tb : TokenBuf) : Nat → List Token × TokenBuf
  | 0 => ([], tb)
  | fuel + 1 =>
    match tb.popleft with
    | (tb', .ok (some tok)) =>
      let (rest, tbf) := tb'.drainAll fuel
      (tok :: rest, tbf)
    | (tb', _) => ([], tb')

/-- Specification fold mirroring one pass of `finalize_loop` over the batch
contents (used to characterize `next_resolve_include_finalized`): the first
non-`StateChange` token becomes the deliverable, later non-`StateChange`
tokens are appended (`Real` retagged to `Phantom`). -/
def finalizeFold (firstitem : Option Token) (tokenbuf : TokenBuf) :
    List Token → Option Token × TokenBuf
  | [] => (firstitem, tokenbuf)
  | tok :: rest =>
    match firstitem with
    | some _ =>
      match tok with
      | .StateChange => finalizeFold firstitem tokenbuf rest
      | tok => finalizeFold firstitem ⟨tokenbuf.num_tokens + 1, tokenbuf.buf ++ [tok.retag]⟩ rest
    | none =>
      match tok with
      | .StateChange => finalizeFold none tokenbuf rest
      | tok => finalizeFold (some tok.retag) tokenbuf rest

/-- Agreement on the fields the trace invariants track: global offset, region
index and snapshot stack. -/
def posAgree (a b : Tokenizer) : Prop :=
  a.pos_zero = b.pos_zero ∧ a.index = b.index ∧ a.state_snap = b.state_snap

/-- How one delivery step may change the snapshot stack and region index:
either both are untouched, or (only when not in the base region) one snapshot
is popped and the index decremented together. -/
def snapShape (t t' : Tokenizer) : Prop :=
  (t'.state_snap = t.state_snap ∧ t'.index = t.index) ∨
  (t.index ≠ 0 ∧ t.state_snap.length = t'.state_snap.length + 1 ∧ t'.index = t.index - 1)

/-- The shape of any tokenizer step result: it is either a
`return_tokenized` delivery from a state agreeing with `t` on the tracked
fields, or a step that leaves those fields unchanged and delivers nothing or
a token without a span. -/
def stepShape (t : Tokenizer) (res : Tokenizer × Option Token) : Prop :=
  (∃ t0 tok0, posAgree t0 t ∧ res = t0.return_tokenized tok0) ∨
  (posAgree res.1 t ∧ (res.2 = none ∨ ∃ out, res.2 = some out ∧ out.span_clone = none))

/-- The snapshot-accounting invariant of the running tokenizer: one snapshot
per entered region, the base region's snapshot at the bottom — so the stack
holds exactly `index + 1` entries. -/
def Jinv (t : Tokenizer) : Prop := t.state_snap.length = t.index + 1

/-- The bookkeeping established by `src_push`: one snapshot per pushed
region, and the region index pointing at the top region. -/
def regionAccount (t : Tokenizer) : Prop :=
  t.state_snap.length = t.region.length ∧ t.index = t.region.length - 1

/-! ### Concrete states used by individual claims -/

/-- A tokenizer whose `parse_error_prev` is already latched to
`InternalError` (the state reached right after a first guard failure), with
one pushed region `"A"`. -/
def exTokC1 : Tokenizer :=
  { (Tokenizer.new.src_push none [0x41]).1 with
    parse_error_prev := .InternalError (mkSource 0 .Tokenizer 1593 0) }

/-- A token whose span's `region_index` (1) mismatches `exTokC1`'s current
region index (0). -/
def exMismatchTok : Token := .Real (.Defered (mkSpan 1 0 0 0 0 1))

/-- Tokenizer with the single pushed region `"\n"`. -/
def exTokC2 : Tokenizer := (Tokenizer.new.src_push none [0x0A]).1

/-- Tokenizer with the single pushed region `"X\nY"`. -/
def exTokXnY : Tokenizer := (Tokenizer.new.src_push none [0x58, 0x0A, 0x59]).1

/-- Tokenizer after two consecutive pushes `"A"`, `"B"`. -/
def exTokC5 : Tokenizer := Tokenizer.new.pushAll [[0x41], [0x42]]

/-- Tokenizer with the single pushed region `"@include("`. -/
def exTokC7 : Tokenizer := (Tokenizer.new.src_push none bytesIncOpen).1

/-- Resolver over the single pushed region `"@include("`. -/
def exResC6 : IncludeResolver :=
  { IncludeResolver.new with tokenizer := (Tokenizer.new.src_push none bytesIncOpen).1 }

/-- First resolver pull on `"@include("`. -/
def exResC6step1 : PResult (IncludeResolver × Option Token) :=
  IncludeResolver.nextToken fsEmpty 20 exResC6

/-- Resolver state after the first pull on `"@include("`. -/
def exResC6mid : IncludeResolver :=
  match exResC6step1 with
  | .ok (r, _) => r
  | .panicked _ => exResC6

/-- Second resolver pull on `"@include("`. -/
def exResC6step2 : PResult (IncludeResolver × Option Token) :=
  IncludeResolver.nextToken fsEmpty 20 exResC6mid

/-- Resolver state after the second pull on `"@include("`. -/
def exResC6fin : IncludeResolver :=
  match exResC6step2 with
  | .ok (r, _) => r
  | .panicked _ => exResC6

/-- Resolver over the single pushed region `"@include()"`. -/
def exResC8 : IncludeResolver :=
  { IncludeResolver.new with tokenizer := (Tokenizer.new.src_push none bytesIncClosed).1 }

/-- First resolver pull on `"@include()"`. -/
def exResC8step1 : PResult (IncludeResolver × Option Token) :=
  IncludeResolver.nextToken fsEmpty 20 exResC8

/-- Resolver state after the first pull on `"@include()"`. -/
def exResC8mid : IncludeResolver :=
  match exResC8step1 with
  | .ok (r, _) => r
  | .panicked _ => exResC8

/-- Second resolver pull on `"@include()"`. -/
def exResC8step2 : PResult (IncludeResolver × Option Token) :=
  IncludeResolver.nextToken fsEmpty 20 exResC8mid

/-- A batch buffer as filled by a resolved `@include` directive:
`Phantom(Include)` followed by the `Real` open paren, path run and close
paren (spans as produced for `"@include(a)"` at offset 0). -/
def exBatchC3 : TokenBuf :=
  ⟨4, [ .Phantom (.Include (mkSpan 0 0 0 0 0 8)),
        .Real (.OpenParen (mkSpan 0 8 8 8 0 1)),
        .Real (.Defered (mkSpan 0 9 9 9 0 1)),
        .Real (.CloseParen (mkSpan 0 10 10 10 0 1)) ]⟩

/-- A resolver holding `exBatchC3` ready to finalize. -/
def exResC3 : IncludeResolver :=
  { IncludeResolver.new with batchbuf := exBatchC3, include_pos_zero := some 0 }

/-! ## Theorems -/

/-- C7: pushing exactly `"@include("` yields, ignoring `StateChange`, exactly
`Real(Include)` at offset 0 with length 8, `Real(OpenParen)` at offset 8 with
length 1, then `Error(OpenInstruction)` whose `Source` carries the original
instruction's global offset 0 — and then `None` (the run of 8 pulls already
ends after these 4 deliveries). -/
theorem C7_unterminated_include_stream :
    (Tokenizer.runTokens 8 exTokC7).filter (fun tok => !tok.isStateChange) =
      [ .Real (.Include (mkSpan 0 0 0 0 0 8)),
        .Real (.OpenParen (mkSpan 0 8 8 8 0 1)),
        .Error (.OpenInstruction (mkSource 0 .Tokenizer 1487 0)) ] ∧
    Tokenizer.runTokens 8 exTokC7 = Tokenizer.runTokens 4 exTokC7 := by
  decide

/-- C6 (divergence witness): on `"@include("` the resolver's in-flight batch
fails (the scanner reports `Error(OpenInstruction)`), and the resolver
returns `None` while the collected batch — still `Real`-tagged — stays
withheld inside `batchbuf` and the delivery buffer stays empty; nothing of
the batch and no error token is delivered (the source's
`BreakReason::Failed` arm is `TODO` and returns `None`). -/
theorem C6_failed_batch_withheld :
    exResC6step1 = .ok (exResC6mid, some Token.StateChange) ∧
    exResC6step2 = .ok (exResC6fin, none) ∧
    exResC6fin.batchbuf.buf =
      [ .Phantom (.Include (mkSpan 0 0 0 0 0 8)),
        .Real (.OpenParen (mkSpan 0 8 8 8 0 1)),
        .Error (.OpenInstruction (mkSource 0 .Tokenizer 1487 0)) ] ∧
    exResC6fin.tokenbuf.buf = [] := by
  decide

/-- C8 (divergence witness): on `"@include()"` the scanner emits
`CloseParen` directly after `OpenParen` (no path token), so the resolver's
`ExpectPath` handler receives a `Real` token that is not `Defered` and hits
the source's `panic!("not impl")` instead of emitting
`Error(InstructionMissingArgs)`. -/
theorem C8_empty_include_panics :
    exResC8step1 = .ok (exResC8mid, some Token.StateChange) ∧
    exResC8step2 = .panicked "not impl" := by
  decide

/-- C9 (divergence witness): `IncludeResolver::file_read` panics instead of
returning `Err(token)`: with no root directory configured it hits
`panic!("must have root dir")`, and with a root configured but an unreadable
file it hits the `unwrap`/`expect` calls on the filesystem operations. -/
theorem C9_file_read_panics :
    IncludeResolver.file_read fsEmpty IncludeResolver.new [0x61] =
      .panicked "must have root dir" ∧
    IncludeResolver.file_read fsEmpty
        (IncludeResolver.new.template_root_dir_set [0x74]) [0x61] =
      .panicked "unable to open file" := by
  decide

/-- C1 counterexample: at a state whose `parse_error_prev` is already
`InternalError`, a span mismatch still delivers `Fatal(InternalError)` and
enters `Failed`, but the offending token is NOT re-enqueued (the token buffer
stays empty), refuting the claim's unconditional "re-enqueues the offending
token". -/
theorem C1_counterexample :
    (exTokC1.return_tokenized exMismatchTok).2 =
      some (.Fatal (.InternalError (mkSource 0 .Tokenizer 1559 0))) ∧
    (exTokC1.return_tokenized exMismatchTok).1.state = .Failed ∧
    (exTokC1.return_tokenized exMismatchTok).1.tokenbuf.buf = [] := by
  decide

/-- C2 counterexample: on the pushed input `"\n"` the tokenizer delivers a
zero-length `Real(Defered)` at global offset 0 followed by `Real(Newline)`
also at global offset 0 (no `Fatal` occurs), so the `pos_zero` sequence of
consecutive content-bearing tokens is `[0, 0]` — contiguous but not strictly
increasing. -/
theorem C2_counterexample :
    Tokenizer.runTokens 3 exTokC2 =
      [ .Real (.Defered (mkSpan 0 0 0 0 0 0)),
        .Real (.Newline (mkSpan 0 0 0 0 0 1)) ] ∧
    (spansOf (Tokenizer.runTokens 3 exTokC2)).map Span.pos_zero = [0, 0] ∧
    noFatal (Tokenizer.runTokens 3 exTokC2) ∧
    ¬ List.Chain' (fun a b => a < b)
        ((spansOf (Tokenizer.runTokens 3 exTokC2)).map Span.pos_zero) := by
  refine ⟨by decide, by decide, by decide, ?_⟩
  have h2 : (spansOf (Tokenizer.runTokens 3 exTokC2)).map Span.pos_zero = [0, 0] := by decide
  rw [h2]
  simp [List.chain'_cons]

/-- C5 counterexample: after N = 2 pushes (`"A"`, `"B"`) and full
tokenization (the next pull returns `None` and control is back in the base
region), the snapshot stack holds 1 entry, not 0: only N − 1 = 1 pop
happened, refuting "N pushes … result in N pops". -/
theorem C5_counterexample :
    exTokC5.state_snap.length = 2 ∧
    (Tokenizer.iterate 2 exTokC5).index = 0 ∧
    ((Tokenizer.iterate 2 exTokC5).nextToken).2 = none ∧
    (Tokenizer.iterate 2 exTokC5).state_snap.length = 1 := by
  decide

/-- `appendAll` on an explicit buffer state just concatenates. -/
theorem appendAll_eq (ts : List Token) : ∀ (n : Nat) (l : List Token),
    TokenBuf.appendAll ⟨n, l⟩ ts = ⟨n + ts.length, l ++ ts⟩ := by
  induction ts with
  | nil => intro n l; simp [TokenBuf.appendAll]
  | cons tok rest ih =>
    intro n l
    simp only [TokenBuf.appendAll, TokenBuf.append, ih, List.length_cons]
    congr 1
    · omega
    · simp

/-- Draining a buffer whose pending count matches the suffix `post` of its
storage returns exactly `post` in order; the storage is cleared by the pop
that returns the last token. -/
theorem drainAll_eq : ∀ (post pre : List Token),
    TokenBuf.drainAll ⟨post.length, pre ++ post⟩ post.length =
      (post, if post.isEmpty then ⟨0, pre ++ post⟩ else ⟨0, []⟩) := by
  intro post
  induction post with
  | nil => intro pre; simp [TokenBuf.drainAll]
  | cons tok rest ih =>
    intro pre
    have hget : (pre ++ tok :: rest)[pre.length]? = some tok := by
      rw [List.getElem?_append_right (Nat.le_refl pre.length)]
      simp
    have c1 : (rest.length + 1 < 1) = False := eq_false (by omega)
    have c2 : (pre.length + (rest.length + 1) < rest.length + 1) = False := eq_false (by omega)
    simp only [TokenBuf.drainAll, TokenBuf.popleft, List.length_cons, List.length_append,
      Nat.add_sub_cancel, c1, c2, if_false, hget]
    by_cases hre : rest = []
    · subst hre
      simp [TokenBuf.drainAll]
    · have hpos : 0 < rest.length := List.length_pos.mpr hre
      have c3 : (rest.length < 1) = False := eq_false (by omega)
      simp only [c3, if_false]
      have heq := ih (pre ++ [tok])
      rw [List.append_assoc] at heq
      simp only [List.cons_append, List.nil_append] at heq
      simp only [heq]
      simp [List.isEmpty_iff, hre]

/-- The failure block always delivers `Fatal(InternalError)`, enters
`Failed`, and leaves the snapshot stack, region index and positions alone. -/
theorem latch_fail_spec (t : Tokenizer) (tok : Token) (l1 l2 : Nat) :
    (∃ s, (t.latch_fail tok l1 l2).2 = some (.Fatal (.InternalError s))) ∧
    (t.latch_fail tok l1 l2).1.state_snap = t.state_snap ∧
    (t.latch_fail tok l1 l2).1.index = t.index ∧
    (t.latch_fail tok l1 l2).1.pos_zero = t.pos_zero ∧
    (t.latch_fail tok l1 l2).1.state = .Failed := by
  unfold Tokenizer.latch_fail Tokenizer.tokenbuf_push TokenBuf.append
  cases t.parse_error_prev <;> simp

/-- `snapShape` only depends on the snapshot stack and index of its first
argument. -/
theorem snapShape_congr {a b t' : Tokenizer} (h1 : a.state_snap = b.state_snap)
    (h2 : a.index = b.index) (h : snapShape a t') : snapShape b t' := by
  unfold snapShape at *
  rw [h1, h2] at h
  exact h

/-- `rt_effects` advances the positions by the span length and leaves the
region index, snapshot stack and region cap alone. -/
theorem rt_effects_fields (t : Tokenizer) (tok : Token) (span : Span) :
    (t.rt_effects tok span).pos_zero = span.pos_zero + span.length ∧
    (t.rt_effects tok span).index = t.index ∧
    (t.rt_effects tok span).state_snap = t.state_snap ∧
    (t.rt_effects tok span).pos_max = t.pos_max := by
  unfold Tokenizer.rt_effects
  cases tok with
  | Real body => cases body <;> simp
  | Phantom body => cases body <;> simp
  | Fatal e => simp
  | Error e => simp
  | Warning e => simp
  | StateChange => simp

/-- Case analysis of `rt_pop`: either the token is delivered (global offset
untouched, snapshot stack/index untouched or popped together), or a
`Fatal(InternalError)` is delivered (same stack shape guarantee). -/
theorem rt_pop_cases (t : Tokenizer) (tok : Token) :
    ((t.rt_pop tok).2 = some tok ∧ (t.rt_pop tok).1.pos_zero = t.pos_zero ∧
      snapShape t (t.rt_pop tok).1) ∨
    ((∃ s, (t.rt_pop tok).2 = some (.Fatal (.InternalError s))) ∧
      snapShape t (t.rt_pop tok).1) := by
  unfold Tokenizer.rt_pop
  by_cases hov : t.pos_max < t.pos_region
  · rw [if_pos hov]
    have h := latch_fail_spec { t with pos_region := t.pos_max } tok 1662 1672
    exact .inr ⟨h.1, .inl ⟨h.2.1, h.2.2.1⟩⟩
  · rw [if_neg hov]
    by_cases heq : t.pos_max = t.pos_region
    · rw [if_pos heq]
      by_cases hidx : t.index = 0
      · rw [if_pos hidx]
        exact .inl ⟨rfl, rfl, .inl ⟨rfl, rfl⟩⟩
      · rw [if_neg hidx]
        rcases hss : t.state_snap with _ | ⟨snap, rest⟩
        · have h := latch_fail_spec t tok 1738 1748
          exact .inr ⟨h.1, .inl ⟨h.2.1, h.2.2.1⟩⟩
        · simp only []
          by_cases hgi : t.index - 1 ≠ snap.index
          · rw [if_pos hgi]
            have h := latch_fail_spec
              { t with
                state_snap := rest, index := t.index - 1, pos_region := snap.pos_region,
                pos_line := snap.pos_line, line := snap.line,
                pos_max := (t.region.getD (t.index - 1) []).length } tok 1707 1717
            refine .inr ⟨h.1, .inr ⟨hidx, ?_, ?_⟩⟩
            · rw [h.2.1, hss]; simp
            · rw [h.2.2.1]
          · rw [if_neg hgi]
            refine .inl ⟨rfl, rfl, .inr ⟨hidx, ?_, rfl⟩⟩
            rw [hss]; simp
    · rw [if_neg heq]
      exact .inl ⟨rfl, rfl, .inl ⟨rfl, rfl⟩⟩

/-- Case analysis of `return_tokenized`: (A) the span-carrying token itself
is delivered, its span equal to the current position, positions advanced by
its length, the snapshot stack popped exactly when the region was exhausted
away from the base region; (B) a token without a span passes through
untouched; (C) a `Fatal(InternalError)` is delivered. -/
theorem rt_cases (t : Tokenizer) (tok : Token) :
    (∃ sp, tok.span_clone = some sp ∧ (t.return_tokenized tok).2 = some tok ∧
      sp.index = t.index ∧ sp.pos_region = t.pos_region ∧ sp.pos_line = t.pos_line ∧
      sp.pos_zero = t.pos_zero ∧ sp.line = t.line ∧
      (t.return_tokenized tok).1.pos_zero = sp.pos_zero + sp.length ∧
      snapShape t (t.return_tokenized tok).1) ∨
    (tok.span_clone = none ∧ t.return_tokenized tok = (t, some tok)) ∨
    ((∃ s, (t.return_tokenized tok).2 = some (.Fatal (.InternalError s))) ∧
      snapShape t (t.return_tokenized tok).1) := by
  rcases hsp : tok.span_clone with _ | sp
  · refine .inr (.inl ⟨rfl, ?_⟩)
    simp [Tokenizer.return_tokenized, hsp]
  · simp only [Tokenizer.return_tokenized, hsp]
    by_cases h1 : t.index ≠ sp.index
    · rw [if_pos h1]
      have h := latch_fail_spec t tok 1549 1559
      exact .inr (.inr ⟨h.1, .inl ⟨h.2.1, h.2.2.1⟩⟩)
    · rw [if_neg h1]
      by_cases h2 : t.pos_region ≠ sp.pos_region ∨ t.pos_line ≠ sp.pos_line ∨
          t.pos_zero ≠ sp.pos_zero ∨ t.line ≠ sp.line
      · rw [if_pos h2]
        have h := latch_fail_spec t tok 1593 1603
        exact .inr (.inr ⟨h.1, .inl ⟨h.2.1, h.2.2.1⟩⟩)
      · rw [if_neg h2]
        push_neg at h1 h2
        obtain ⟨e2, e3, e4, e5⟩ := h2
        have heff := rt_effects_fields t tok sp
        rcases rt_pop_cases (t.rt_effects tok sp) tok with ⟨hd, hpz, hshape⟩ | ⟨hf, hshape⟩
        · refine .inl ⟨sp, rfl, hd, h1.symm, e2.symm, e3.symm, e4.symm, e5.symm, ?_, ?_⟩
          · rw [hpz, heff.1]
          · exact snapShape_congr heff.2.2.1 heff.2.1 hshape
        · exact .inr (.inr ⟨hf, snapShape_congr heff.2.2.1 heff.2.1 hshape⟩)

/-- `TokenBuf.append` always succeeds in the model. -/
theorem append_ok (tb : TokenBuf) (tok : Token) :
    tb.append tok = .ok ⟨tb.num_tokens + 1, tb.buf ++ [tok]⟩ := rfl

/-- `tokenbuf_push` always succeeds in the model. -/
theorem tokenbuf_push_ok (t : Tokenizer) (tok : Token) :
    t.tokenbuf_push tok =
      ({ t with tokenbuf := ⟨t.tokenbuf.num_tokens + 1, t.tokenbuf.buf ++ [tok]⟩ }, .ok ()) := rfl

/-- `posAgree` is reflexive. -/
theorem posAgree_refl (t : Tokenizer) : posAgree t t := ⟨rfl, rfl, rfl⟩

/-- `posAgree` is transitive. -/
theorem posAgree_trans {a b c : Tokenizer} (h1 : posAgree a b) (h2 : posAgree b c) :
    posAgree a c :=
  ⟨h1.1.trans h2.1, h1.2.1.trans h2.2.1, h1.2.2.trans h2.2.2⟩

/-- A step shape relative to an agreeing state transfers. -/
theorem stepShape_congr {a b : Tokenizer} {res : Tokenizer × Option Token}
    (hab : posAgree a b) (h : stepShape a res) : stepShape b res := by
  rcases h with ⟨t0, tok0, hag, heq⟩ | ⟨hag, hout⟩
  · exact .inl ⟨t0, tok0, posAgree_trans hag hab, heq⟩
  · exact .inr ⟨posAgree_trans hag hab, hout⟩

/-- An error returned by `TokenBuf.popleft` is a `Fatal` without a span. -/
theorem popleft_error_nospan (tb : TokenBuf) :
    ∀ tok, (tb.popleft).2 = .error tok → tok.span_clone = none := by
  intro tok h
  unfold TokenBuf.popleft at h
  by_cases h0 : tb.num_tokens < 1
  · rw [if_pos h0] at h
    simp at h
  · rw [if_neg h0] at h
    dsimp only at h
    by_cases h1 : tb.buf.length < tb.num_tokens
    · rw [if_pos h1] at h
      simp at h
      rw [← h]
      rfl
    · rw [if_neg h1] at h
      rcases hg : tb.buf[tb.buf.length - tb.num_tokens]? with _ | tk
      · rw [hg] at h
        simp at h
        rw [← h]
        rfl
      · rw [hg] at h
        dsimp only at h
        split at h <;> simp at h

/-- Any error token produced by `line_tokenize` carries no span. -/
theorem line_tokenize_out (index : Nat) (src : List Byte) (pos_end pos_zero_base : Nat)
    (st : WsState) :
    ∀ out, (line_tokenize index src pos_end pos_zero_base st).2 = some out →
      out.span_clone = none := by
  intro out h
  unfold line_tokenize at h
  rcases hfn : find_newline src (pos_end - st.pos) st.pos with _ | p
  · rw [hfn] at h
    simp at h
    rw [← h]
    rfl
  · rw [hfn] at h
    simp only [append_ok] at h
    by_cases hw : 0 < p - st.pos_prev
    · rw [if_pos hw] at h
      simp at h
    · rw [if_neg hw] at h
      simp at h

/-- Any error token produced by the whitespace line loop carries no span. -/
theorem whitespace_lines_loop_out (index : Nat) (src : List Byte)
    (pos_end pos_zero_base : Nat) :
    ∀ (n : Nat) (st : WsState) (out : Token),
      (whitespace_lines_loop index src pos_end pos_zero_base n st).2 = some out →
      out.span_clone = none := by
  intro n
  induction n with
  | zero => intro st out h; simp [whitespace_lines_loop] at h
  | succ m ih =>
    intro st out h
    unfold whitespace_lines_loop at h
    rcases hlt : line_tokenize index src pos_end pos_zero_base st with ⟨st', o⟩
    rcases o with _ | tok
    · rw [hlt] at h
      exact ih st' out h
    · rw [hlt] at h
      simp at h
      subst h
      exact line_tokenize_out index src pos_end pos_zero_base st tok (by rw [hlt])

/-- Any error token produced by `tokenizer_whitespace_tokenize` carries no
span. -/
theorem tokenizer_whitespace_tokenize_out (tokenbuf : TokenBuf) (index : Nat)
    (src : List Byte) (pos_zero pos_region len_region line_start line_end pos_line
      len_token : Nat) :
    ∀ out, (tokenizer_whitespace_tokenize tokenbuf index src pos_zero pos_region
        len_region line_start line_end pos_line len_token).2 = some out →
      out.span_clone = none := by
  intro out h
  unfold tokenizer_whitespace_tokenize at h
  dsimp only at h
  rcases hll : whitespace_lines_loop index src (pos_region + len_region)
      (pos_zero + len_token) (line_end - line_start)
      ⟨tokenbuf, pos_region, pos_region, 0, pos_line + len_token, line_start⟩ with ⟨st, o⟩
  rcases o with _ | tok
  · rw [hll] at h
    dsimp only at h
    by_cases hp : pos_region + len_region ≠ st.pos
    · rw [if_pos hp] at h
      simp only [append_ok] at h
      simp at h
    · rw [if_neg hp] at h
      simp at h
  · rw [hll] at h
    simp at h
    subst h
    exact whitespace_lines_loop_out index src _ _ _ _ tok (by rw [hll])

/-- `whitespace_into_tokenbuf` only touches the token buffer, and any error
token it returns carries no span. -/
theorem whitespace_into_tokenbuf_shape (t : Tokenizer)
    (index pos_region len_region line_start line_end : Nat) :
    posAgree (t.whitespace_into_tokenbuf index pos_region len_region line_start line_end).1 t ∧
    ∀ out,
      (t.whitespace_into_tokenbuf index pos_region len_region line_start line_end).2 =
        some out → out.span_clone = none := by
  unfold Tokenizer.whitespace_into_tokenbuf
  by_cases hlr : len_region < 1
  · rw [if_pos hlr]
    exact ⟨posAgree_refl t, by intro out h; simp at h⟩
  · rw [if_neg hlr]
    by_cases hls : line_start = line_end
    · rw [if_pos hls]
      simp only [tokenbuf_push_ok]
      exact ⟨⟨rfl, rfl, rfl⟩, by intro out h; simp at h⟩
    · rw [if_neg hls]
      refine ⟨⟨rfl, rfl, rfl⟩, ?_⟩
      intro out h
      simp only [] at h
      exact tokenizer_whitespace_tokenize_out _ _ _ _ _ _ _ _ _ _ out h

/-- Delivering a `Defered` after buffering the instruction tokens is a
`return_tokenized` call from a state that only has extra buffered tokens. -/
theorem correct_paren_defered_finish_shape (t : Tokenizer)
    (pos_start len_defered line_start pos_open_paren line_open_paren
      pos_last_linestart pos_next_span len_to_span : Nat) :
    stepShape t (t.correct_paren_defered_finish pos_start len_defered line_start
      pos_open_paren line_open_paren pos_last_linestart pos_next_span len_to_span) := by
  unfold Tokenizer.correct_paren_defered_finish
  simp only [tokenbuf_push_ok]
  refine .inl ⟨_, _, ?_, rfl⟩
  exact ⟨rfl, rfl, rfl⟩

set_option maxHeartbeats 1000000 in
/-- Step shape of `instruction_tokenize_correct_paren_defered`. -/
theorem correct_paren_defered_shape (t : Tokenizer)
    (pos_at pos_start pos_open_paren ident_pos_end line_at line_start
      line_open_paren pos_last_linestart : Nat) :
    stepShape t (t.instruction_tokenize_correct_paren_defered pos_at pos_start
      pos_open_paren ident_pos_end line_at line_start line_open_paren
      pos_last_linestart) := by
  unfold Tokenizer.instruction_tokenize_correct_paren_defered
  dsimp only
  by_cases h1 : line_at ≠ line_start
  · rw [if_pos h1]
    exact .inr ⟨⟨rfl, rfl, rfl⟩, .inr ⟨_, rfl, rfl⟩⟩
  · rw [if_neg h1]
    by_cases h2 : pos_start ≠ t.pos_region
    · rw [if_pos h2]
      exact .inr ⟨⟨rfl, rfl, rfl⟩, .inr ⟨_, rfl, rfl⟩⟩
    · rw [if_neg h2]
      simp only [tokenbuf_push_ok]
      by_cases h3 : 0 < pos_open_paren - ident_pos_end - 1
      · rw [if_pos h3]
        refine stepShape_congr ?_ (correct_paren_defered_finish_shape _ _ _ _ _ _ _ _ _)
        exact ⟨rfl, rfl, rfl⟩
      · rw [if_neg h3]
        refine stepShape_congr ?_ (correct_paren_defered_finish_shape _ _ _ _ _ _ _ _ _)
        exact ⟨rfl, rfl, rfl⟩

/-- Step shape of `instruction_tokenize_correct_paren_now`. -/
theorem correct_paren_now_shape (t : Tokenizer)
    (pos_at pos_start pos_open_paren ident_pos_end line_at line_start
      line_open_paren pos_last_linestart : Nat) :
    stepShape t (t.instruction_tokenize_correct_paren_now pos_at pos_start
      pos_open_paren ident_pos_end line_at line_start line_open_paren
      pos_last_linestart) := by
  unfold Tokenizer.instruction_tokenize_correct_paren_now
  by_cases h1 : line_at ≠ line_start
  · rw [if_pos h1]
    exact .inr ⟨⟨rfl, rfl, rfl⟩, .inr ⟨_, rfl, rfl⟩⟩
  · rw [if_neg h1]
    dsimp only
    have hw := whitespace_into_tokenbuf_shape t t.index (ident_pos_end + 1)
      (pos_open_paren - ident_pos_end - 1) line_at line_open_paren
    rcases hwe : t.whitespace_into_tokenbuf t.index (ident_pos_end + 1)
        (pos_open_paren - ident_pos_end - 1) line_at line_open_paren with ⟨t1, o⟩
    rw [hwe] at hw
    rcases o with _ | err
    · dsimp only
      simp only [tokenbuf_push_ok]
      refine .inl ⟨_, _, ?_, rfl⟩
      exact ⟨hw.1.1, hw.1.2.1, hw.1.2.2⟩
    · dsimp only
      exact .inr ⟨hw.1, .inr ⟨err, rfl, hw.2 err rfl⟩⟩

/-- Step shape of `instruction_tokenize_bad_paren`. -/
theorem bad_paren_shape (t : Tokenizer) (pos_start : Nat) :
    stepShape t (t.instruction_tokenize_bad_paren pos_start) := by
  unfold Tokenizer.instruction_tokenize_bad_paren
  simp only [tokenbuf_push_ok]
  refine .inl ⟨_, _, ?_, rfl⟩
  exact ⟨rfl, rfl, rfl⟩

/-- Step shape of `instruction_tokenize_unfinished`. -/
theorem unfinished_shape (t : Tokenizer) (pos_start pos_max : Nat) :
    stepShape t (t.instruction_tokenize_unfinished pos_start pos_max) :=
  .inl ⟨t, _, posAgree_refl t, rfl⟩

/-- Step shape of `instruction_tokenize_whitespace_before_instruction`. -/
theorem ws_before_shape (t : Tokenizer) :
    stepShape t t.instruction_tokenize_whitespace_before_instruction :=
  .inl ⟨t, _, posAgree_refl t, rfl⟩

/-- Step shape of `instruction_tokenize_correct_paren`. -/
theorem correct_paren_shape (t : Tokenizer)
    (pos_at pos_start pos_first_char pos_last_char line_at line_start
      line_open_paren pos_open_paren pos_last_linestart : Nat) :
    stepShape t (t.instruction_tokenize_correct_paren pos_at pos_start
      pos_first_char pos_last_char line_at line_start line_open_paren
      pos_open_paren pos_last_linestart) := by
  unfold Tokenizer.instruction_tokenize_correct_paren
  dsimp only
  by_cases h1 : pos_last_char < pos_first_char
  · rw [if_pos h1]
    exact .inr ⟨⟨rfl, rfl, rfl⟩, .inr ⟨_, rfl, rfl⟩⟩
  · rw [if_neg h1]
    by_cases h2 : pos_first_char ≤ pos_at
    · rw [if_pos h2]
      exact .inr ⟨⟨rfl, rfl, rfl⟩, .inr ⟨_, rfl, rfl⟩⟩
    · rw [if_neg h2]
      by_cases h3 : pos_at + 1 = pos_first_char
      · rw [if_pos h3]
        rcases him : ident_match (t.region.getD t.index []) pos_first_char pos_last_char
          with ⟨s, e⟩ | _
        · dsimp only
          by_cases h4 : pos_start < pos_at
          · rw [if_pos h4]
            exact correct_paren_defered_shape t _ _ _ _ _ _ _ _
          · rw [if_neg h4]
            exact correct_paren_now_shape t _ _ _ _ _ _ _ _
        · dsimp only
          exact .inr ⟨⟨rfl, rfl, rfl⟩, .inl rfl⟩
      · rw [if_neg h3]
        exact ws_before_shape t

/-- Step shape of `instruction_tokenize`. -/
theorem instruction_tokenize_shape (t : Tokenizer)
    (pos_at pos_start pos_max line_at line_start : Nat) :
    stepShape t (t.instruction_tokenize pos_at pos_start pos_max line_at line_start) := by
  unfold Tokenizer.instruction_tokenize
  dsimp only
  rcases his : iscan_loop (t.region.getD t.index []) (pos_max + 1) (pos_max - (pos_at + 1))
      ⟨pos_at + 1, line_at, pos_max + 1, pos_max + 1, pos_max + 1, pos_max + 1, pos_max + 1,
        pos_max + 1, pos_max + 1, pos_max + 1, pos_max + 1, pos_max + 1, line_at, pos_start⟩
    with st | st
  · dsimp only
    by_cases h : st.pos_open_paren < st.pos_close_paren
    · rw [if_pos h]
      exact correct_paren_shape t _ _ _ _ _ _ _ _ _
    · rw [if_neg h]
      exact bad_paren_shape t _
  · dsimp only
    exact unfinished_shape t _ _

/-- Step shape of `defered_tokenize`. -/
theorem defered_tokenize_shape (t : Tokenizer) :
    stepShape t t.defered_tokenize := by
  unfold Tokenizer.defered_tokenize
  dsimp only
  rcases find_special (t.region.getD t.index []) ((t.region.getD t.index []).length - t.pos_region)
      t.pos_region with _ | ⟨pos, b⟩
  · by_cases h : t.pos_region < (t.region.getD t.index []).length
    · rw [if_pos h]
      exact .inl ⟨t, _, posAgree_refl t, rfl⟩
    · rw [if_neg h]
      exact .inr ⟨⟨rfl, rfl, rfl⟩, .inl rfl⟩
  · dsimp only
    by_cases hb : b = 0x0A
    · rw [if_pos hb]
      simp only [append_ok]
      refine .inl ⟨_, _, ?_, rfl⟩
      exact ⟨rfl, rfl, rfl⟩
    · rw [if_neg hb]
      exact instruction_tokenize_shape t _ _ _ _ _

/-- Step shape of `args_end_error`. -/
theorem args_end_error_shape (t : Tokenizer) : stepShape t t.args_end_error := by
  unfold Tokenizer.args_end_error
  simp only [tokenbuf_push_ok]
  exact .inr ⟨⟨rfl, rfl, rfl⟩, .inr ⟨_, rfl, rfl⟩⟩

/-- Step shape of `args_end`. -/
theorem args_end_shape (t : Tokenizer) (st : ArgsSt) : stepShape t (t.args_end st) := by
  unfold Tokenizer.args_end
  by_cases h : st.pos_token_start < st.pos
  · rw [if_pos h]
    simp only [tokenbuf_push_ok]
    refine stepShape_congr ?_ (args_end_error_shape _)
    exact ⟨rfl, rfl, rfl⟩
  · rw [if_neg h]
    exact args_end_shape_aux t
where
  args_end_shape_aux (t : Tokenizer) : stepShape t t.args_end_error := args_end_error_shape t

/-- Step shape of the instruction-argument loop. -/
theorem args_loop_shape (src : List Byte) :
    ∀ (fuel : Nat) (t : Tokenizer) (st : ArgsSt), stepShape t (t.args_loop src fuel st) := by
  intro fuel
  induction fuel with
  | zero => intro t st; exact args_end_shape t st
  | succ m ih =>
    intro t st
    unfold Tokenizer.args_loop
    dsimp only
    by_cases h0 : src.getD st.pos 0 = 0x0A
    · rw [if_pos h0]
      simp only [append_ok]
      refine stepShape_congr ?_ (ih _ _)
      exact ⟨rfl, rfl, rfl⟩
    · rw [if_neg h0]
      by_cases h1 : src.getD st.pos 0 = 0x28
      · rw [if_pos h1]
        refine stepShape_congr ?_ (ih _ _)
        exact ⟨rfl, rfl, rfl⟩
      · rw [if_neg h1]
        by_cases h2 : src.getD st.pos 0 = 0x29
        · rw [if_pos h2]
          by_cases h3 : t.cnt_closeparen + 1 = t.cnt_openparen
          · rw [if_pos h3]
            by_cases h4 : 0 < st.pos - st.pos_token_start
            · rw [if_pos h4]
              simp only [tokenbuf_push_ok]
              exact .inr ⟨⟨rfl, rfl, rfl⟩, .inr ⟨_, rfl, rfl⟩⟩
            · rw [if_neg h4]
              refine .inl ⟨_, _, ?_, rfl⟩
              exact ⟨rfl, rfl, rfl⟩
          · rw [if_neg h3]
            refine stepShape_congr ?_ (ih _ _)
            exact ⟨rfl, rfl, rfl⟩
        · rw [if_neg h2]
          refine stepShape_congr ?_ (ih _ _)
          exact ⟨rfl, rfl, rfl⟩

/-- Step shape of `tokenize_instruction_args`. -/
theorem tokenize_instruction_args_shape (t : Tokenizer) :
    stepShape t t.tokenize_instruction_args := by
  unfold Tokenizer.tokenize_instruction_args
  exact args_loop_shape _ _ t _

/-- Step shape of the iterator's state dispatch. -/
theorem nextDispatch_shape (t : Tokenizer) : stepShape t t.nextDispatch := by
  unfold Tokenizer.nextDispatch
  rcases hst : t.state with _ | _ | _ | _
  · rcases hpe : t.parse_error_prev <;>
      first
        | exact .inr ⟨⟨rfl, rfl, rfl⟩, .inl rfl⟩
        | exact .inr ⟨⟨rfl, rfl, rfl⟩, .inr ⟨_, rfl, rfl⟩⟩
  · exact defered_tokenize_shape t
  · exact tokenize_instruction_args_shape t
  · exact .inr ⟨⟨rfl, rfl, rfl⟩, .inl rfl⟩

/-- `tokenbuf_consume` only touches the token buffer and the failure flag;
its error tokens carry no span. -/
theorem tokenbuf_consume_shape (t : Tokenizer) :
    posAgree (t.tokenbuf_consume).1 t ∧
    ∀ tok, (t.tokenbuf_consume).2 = .error tok → tok.span_clone = none := by
  unfold Tokenizer.tokenbuf_consume
  rcases hp : t.tokenbuf.popleft with ⟨tb, r⟩
  rcases r with s | tok
  · refine ⟨⟨rfl, rfl, rfl⟩, ?_⟩
    intro tk h
    simp at h
    subst h
    exact popleft_error_nospan t.tokenbuf _ (by rw [hp])
  · exact ⟨⟨rfl, rfl, rfl⟩, by intro tk h; simp at h⟩

/-- The master step-shape lemma for `<Tokenizer as Iterator>::next`. -/
theorem nextToken_shape (t : Tokenizer) : stepShape t t.nextToken := by
  unfold Tokenizer.nextToken
  by_cases h0 : 0 < t.tokenbuf.num_tokens
  · rw [if_pos h0]
    have hc := tokenbuf_consume_shape t
    rcases hce : t.tokenbuf_consume with ⟨t1, r⟩
    rw [hce] at hc
    rcases r with etok | s
    · dsimp only
      exact .inr ⟨hc.1, .inr ⟨etok, rfl, hc.2 etok rfl⟩⟩
    · rcases s with _ | tok
      · dsimp only
        exact stepShape_congr hc.1 (nextDispatch_shape t1)
      · dsimp only
        exact .inl ⟨t1, tok, hc.1, rfl⟩
  · rw [if_neg h0]
    exact nextDispatch_shape t

/-- C4: for every sequence of `TokenBuf::append` calls on a fresh buffer
followed by a complete drain via `TokenBuf::popleft`, the tokens come back in
exactly the order they were appended, and after the pop that returns the last
token the backing storage length (`buf_len`) is zero. -/
theorem C4_fifo_drain (ts : List Token) :
    ((TokenBuf.new.appendAll ts).drainAll ts.length).1 = ts ∧
    ((TokenBuf.new.appendAll ts).drainAll ts.length).2.buf_len = 0 := by
  have h1 : TokenBuf.new.appendAll ts = ⟨ts.length, ts⟩ := by
    simpa using appendAll_eq ts 0 []
  have h2 := drainAll_eq ts []
  simp only [List.nil_append] at h2
  rw [h1, h2]
  constructor
  · rfl
  · by_cases h : ts.isEmpty
    · simp [h, TokenBuf.buf_len, List.isEmpty_iff.mp h]
    · simp [h, TokenBuf.buf_len]

/-- An error returned by `TokenBuf.popleft` is never a `Real` token. -/
theorem popleft_error_notReal (tb : TokenBuf) :
    ∀ tok, (tb.popleft).2 = .error tok → tok.isReal = false := by
  intro tok h
  unfold TokenBuf.popleft at h
  by_cases h0 : tb.num_tokens < 1
  · rw [if_pos h0] at h
    simp at h
  · rw [if_neg h0] at h
    dsimp only at h
    by_cases h1 : tb.buf.length < tb.num_tokens
    · rw [if_pos h1] at h
      simp at h
      rw [← h]
      rfl
    · rw [if_neg h1] at h
      rcases hg : tb.buf[tb.buf.length - tb.num_tokens]? with _ | tk
      · rw [hg] at h
        simp at h
        rw [← h]
        rfl
      · rw [hg] at h
        dsimp only at h
        split at h <;> simp at h

/-- The finalize drain only ever appends non-`Real` tokens to the delivery
buffer, and every token it hands back for delivery (`Sum.inl (some _)` unless
it is the untouched incoming `firstitem`, and every early-return `Sum.inr`)
is non-`Real`. -/
theorem finalize_loop_appends_phantom :
    ∀ (fuel : Nat) (r : IncludeResolver) (fi : Option Token),
      (∃ added, (IncludeResolver.finalize_loop fuel r fi).1.tokenbuf.buf =
          r.tokenbuf.buf ++ added ∧ ∀ tok ∈ added, tok.isReal = false) ∧
      (∀ tok, (IncludeResolver.finalize_loop fuel r fi).2 = .inl (some tok) →
        tok.isReal = false ∨ fi = some tok) ∧
      (∀ tok, (IncludeResolver.finalize_loop fuel r fi).2 = .inr tok →
        tok.isReal = false) := by
  intro fuel
  induction fuel with
  | zero =>
    intro r fi
    refine ⟨⟨[], by simp [IncludeResolver.finalize_loop], by simp⟩, ?_, ?_⟩
    · intro tok h
      simp [IncludeResolver.finalize_loop] at h
      exact .inr h
    · intro tok h
      simp [IncludeResolver.finalize_loop] at h
  | succ m ih =>
    intro r fi
    rcases hp : r.batchbuf.popleft with ⟨bb, res⟩
    rcases res with etok | os
    · simp only [IncludeResolver.finalize_loop, hp]
      refine ⟨⟨[], by simp, by simp⟩, ?_, ?_⟩
      · intro tok h
        simp at h
      · intro tok h
        simp at h
        subst h
        exact popleft_error_notReal r.batchbuf _ (by rw [hp])
    · rcases os with _ | tok0
      · simp only [IncludeResolver.finalize_loop, hp]
        refine ⟨⟨[], by simp, by simp⟩, ?_, ?_⟩
        · intro tok h
          simp at h
          exact .inr h
        · intro tok h
          simp at h
      · rcases fi with _ | fi0
        · rcases tok0 with tb0 | tb0 | e0 | e0 | e0 | _
          · simp only [IncludeResolver.finalize_loop, hp]
            obtain ⟨hadd, hinl, hinr⟩ := ih { r with batchbuf := bb } (some (.Phantom tb0))
            refine ⟨hadd, ?_, hinr⟩
            intro tok h
            rcases hinl tok h with hr | hfi
            · exact .inl hr
            · left
              injection hfi with hfi
              rw [← hfi]
              rfl
          · simp only [IncludeResolver.finalize_loop, hp]
            obtain ⟨hadd, hinl, hinr⟩ := ih { r with batchbuf := bb } (some (.Phantom tb0))
            refine ⟨hadd, ?_, hinr⟩
            intro tok h
            rcases hinl tok h with hr | hfi
            · exact .inl hr
            · left
              injection hfi with hfi
              rw [← hfi]
              rfl
          · simp only [IncludeResolver.finalize_loop, hp]
            obtain ⟨hadd, hinl, hinr⟩ := ih { r with batchbuf := bb } (some (.Fatal e0))
            refine ⟨hadd, ?_, hinr⟩
            intro tok h
            rcases hinl tok h with hr | hfi
            · exact .inl hr
            · left
              injection hfi with hfi
              rw [← hfi]
              rfl
          · simp only [IncludeResolver.finalize_loop, hp]
            obtain ⟨hadd, hinl, hinr⟩ := ih { r with batchbuf := bb } (some (.Error e0))
            refine ⟨hadd, ?_, hinr⟩
            intro tok h
            rcases hinl tok h with hr | hfi
            · exact .inl hr
            · left
              injection hfi with hfi
              rw [← hfi]
              rfl
          · simp only [IncludeResolver.finalize_loop, hp]
            obtain ⟨hadd, hinl, hinr⟩ := ih { r with batchbuf := bb } (some (.Warning e0))
            refine ⟨hadd, ?_, hinr⟩
            intro tok h
            rcases hinl tok h with hr | hfi
            · exact .inl hr
            · left
              injection hfi with hfi
              rw [← hfi]
              rfl
          · simp only [IncludeResolver.finalize_loop, hp]
            obtain ⟨hadd, hinl, hinr⟩ := ih { r with batchbuf := bb } none
            refine ⟨hadd, ?_, hinr⟩
            intro tok h
            rcases hinl tok h with hr | hfi
            · exact .inl hr
            · cases hfi
        · rcases tok0 with tb0 | tb0 | e0 | e0 | e0 | _
          · simp only [IncludeResolver.finalize_loop, hp, append_ok]
            obtain ⟨⟨added, hbuf, hreal⟩, hinl, hinr⟩ :=
              ih { r with
                    batchbuf := bb
                    tokenbuf := ⟨r.tokenbuf.num_tokens + 1, r.tokenbuf.buf ++ [.Phantom tb0]⟩ }
                (some fi0)
            refine ⟨⟨.Phantom tb0 :: added, ?_, ?_⟩, hinl, hinr⟩
            · rw [hbuf]
              simp
            · intro tok h
              rcases List.mem_cons.mp h with h | h
              · rw [h]
                rfl
              · exact hreal tok h
          · simp only [IncludeResolver.finalize_loop, hp, append_ok]
            obtain ⟨⟨added, hbuf, hreal⟩, hinl, hinr⟩ :=
              ih { r with
                    batchbuf := bb
                    tokenbuf := ⟨r.tokenbuf.num_tokens + 1, r.tokenbuf.buf ++ [.Phantom tb0]⟩ }
                (some fi0)
            refine ⟨⟨.Phantom tb0 :: added, ?_, ?_⟩, hinl, hinr⟩
            · rw [hbuf]
              simp
            · intro tok h
              rcases List.mem_cons.mp h with h | h
              · rw [h]
                rfl
              · exact hreal tok h
          · simp only [IncludeResolver.finalize_loop, hp, append_ok]
            obtain ⟨⟨added, hbuf, hreal⟩, hinl, hinr⟩ :=
              ih { r with
                    batchbuf := bb
                    tokenbuf := ⟨r.tokenbuf.num_tokens + 1, r.tokenbuf.buf ++ [.Fatal e0]⟩ }
                (some fi0)
            refine ⟨⟨.Fatal e0 :: added, ?_, ?_⟩, hinl, hinr⟩
            · rw [hbuf]
              simp
            · intro tok h
              rcases List.mem_cons.mp h with h | h
              · rw [h]
                rfl
              · exact hreal tok h
          · simp only [IncludeResolver.finalize_loop, hp, append_ok]
            obtain ⟨⟨added, hbuf, hreal⟩, hinl, hinr⟩ :=
              ih { r with
                    batchbuf := bb
                    tokenbuf := ⟨r.tokenbuf.num_tokens + 1, r.tokenbuf.buf ++ [.Error e0]⟩ }
                (some fi0)
            refine ⟨⟨.Error e0 :: added, ?_, ?_⟩, hinl, hinr⟩
            · rw [hbuf]
              simp
            · intro tok h
              rcases List.mem_cons.mp h with h | h
              · rw [h]
                rfl
              · exact hreal tok h
          · simp only [IncludeResolver.finalize_loop, hp, append_ok]
            obtain ⟨⟨added, hbuf, hreal⟩, hinl, hinr⟩ :=
              ih { r with
                    batchbuf := bb
                    tokenbuf := ⟨r.tokenbuf.num_tokens + 1, r.tokenbuf.buf ++ [.Warning e0]⟩ }
                (some fi0)
            refine ⟨⟨.Warning e0 :: added, ?_, ?_⟩, hinl, hinr⟩
            · rw [hbuf]
              simp
            · intro tok h
              rcases List.mem_cons.mp h with h | h
              · rw [h]
                rfl
              · exact hreal tok h
          · simp only [IncludeResolver.finalize_loop, hp]
            exact ih { r with batchbuf := bb } (some fi0)

/-- Equation form of `finalize_loop_appends_phantom`, keyed on the result
pair. -/
theorem finalize_loop_shape (fuel : Nat) (r : IncludeResolver) (fi : Option Token)
    (r2 : IncludeResolver) (out : Option Token ⊕ Token)
    (heq : IncludeResolver.finalize_loop fuel r fi = (r2, out)) :
    (∃ added, r2.tokenbuf.buf = r.tokenbuf.buf ++ added ∧
      ∀ tok ∈ added, tok.isReal = false) ∧
    (∀ tok, out = .inl (some tok) → tok.isReal = false ∨ fi = some tok) ∧
    (∀ tok, out = .inr tok → tok.isReal = false) := by
  have H := finalize_loop_appends_phantom fuel r fi
  rw [heq] at H
  exact H

/-- C3: when the `IncludeResolver` finalizes an `@include` directive, no
`Real` token survives: the deliverable handed back by
`next_resolve_include_finalized` is never `Real`, every token the finalize
step appends to the delivery buffer is non-`Real`, and on the concrete batch
of a resolved `@include(a)` directive the `Include`, `OpenParen`, path
`Defered` and `CloseParen` all come out tagged `Phantom`. -/
theorem C3_finalized_all_phantom :
    (∀ r : IncludeResolver,
      (∀ tok, (r.next_resolve_include_finalized).2 = some tok → tok.isReal = false) ∧
      ∃ added, (r.next_resolve_include_finalized).1.tokenbuf.buf =
          r.tokenbuf.buf ++ added ∧ ∀ tok ∈ added, tok.isReal = false) ∧
    (exResC3.next_resolve_include_finalized).2 =
      some (.Phantom (.Include (mkSpan 0 0 0 0 0 8))) ∧
    (exResC3.next_resolve_include_finalized).1.tokenbuf.buf =
      [ .Phantom (.OpenParen (mkSpan 0 8 8 8 0 1)),
        .Phantom (.Defered (mkSpan 0 9 9 9 0 1)),
        .Phantom (.CloseParen (mkSpan 0 10 10 10 0 1)) ] := by
  refine ⟨?_, by decide, by decide⟩
  intro r
  unfold IncludeResolver.next_resolve_include_finalized
  dsimp only
  by_cases h0 : r.batchbuf.buf_len < 1
  · rw [if_pos h0]
    refine ⟨?_, ⟨[], by simp, by simp⟩⟩
    intro tok h
    have h2 := Option.some.inj h
    rw [← h2]
    rfl
  · rw [if_neg h0]
    rcases hfl : IncludeResolver.finalize_loop (r.batchbuf.num_tokens + 1)
        { r with include_pos_zero := none } none with ⟨r2, out⟩
    obtain ⟨⟨added, hadd, hreal⟩, hinl, hinr⟩ :=
      finalize_loop_shape _ _ _ _ _ hfl
    rcases out with fi | etok
    · rcases fi with _ | tok2
      · dsimp only
        refine ⟨?_, ⟨added, hadd, hreal⟩⟩
        intro tok h
        have h2 := Option.some.inj h
        rw [← h2]
        rfl
      · dsimp only
        refine ⟨?_, ⟨added, hadd, hreal⟩⟩
        intro tok h
        have h2 := Option.some.inj h
        rw [← h2]
        rcases hinl tok2 rfl with hr | hfi
        · exact hr
        · cases hfi
    · dsimp only
      refine ⟨?_, ⟨added, hadd, hreal⟩⟩
      intro tok h
      have h2 := Option.some.inj h
      rw [← h2]
      exact hinr etok rfl

/-- The conclusions of both integrity-guard failures of `return_tokenized`:
`Failed` state, `Fatal(InternalError)` delivered, and the offending token
re-enqueued exactly when `parse_error_prev` was not already `InternalError`. -/
theorem latch_fail_outcome (t : Tokenizer) (tok : Token) (l1 l2 : Nat) :
    (t.latch_fail tok l1 l2).1.state = .Failed ∧
    (∃ s, (t.latch_fail tok l1 l2).2 = some (.Fatal (.InternalError s))) ∧
    ((∃ s, t.parse_error_prev = .InternalError s) →
      (t.latch_fail tok l1 l2).1.tokenbuf = t.tokenbuf) ∧
    ((∀ s, t.parse_error_prev ≠ .InternalError s) →
      (t.latch_fail tok l1 l2).1.tokenbuf.buf = t.tokenbuf.buf ++ [tok]) := by
  refine ⟨(latch_fail_spec t tok l1 l2).2.2.2.2, (latch_fail_spec t tok l1 l2).1, ?_, ?_⟩
  · unfold Tokenizer.latch_fail
    rcases hpe : t.parse_error_prev
    case InternalError s0 =>
      intro h
      rfl
    all_goals (rintro ⟨s, hs⟩; nomatch hs)
  · unfold Tokenizer.latch_fail
    rcases hpe : t.parse_error_prev
    case InternalError s0 =>
      intro h
      exact absurd rfl (h s0)
    all_goals (intro h; rfl)

/-- C1 (amended): a `Real`/`Phantom` (span-carrying) token is delivered by
`return_tokenized` only with its span fields equal to the tokenizer's
position fields taken immediately before delivery; on any mismatch the
tokenizer delivers `Fatal(InternalError)` and enters `Failed`, but the
offending token is re-enqueued only when `parse_error_prev` is not already
`InternalError` — when it is already latched, the token is dropped. -/
theorem C1_amended (t : Tokenizer) (tok : Token) (sp : Span)
    (hsp : tok.span_clone = some sp) :
    ((t.return_tokenized tok).2 = some tok →
      sp.index = t.index ∧ sp.pos_region = t.pos_region ∧ sp.pos_line = t.pos_line ∧
        sp.pos_zero = t.pos_zero ∧ sp.line = t.line) ∧
    ((t.index ≠ sp.index ∨ t.pos_region ≠ sp.pos_region ∨ t.pos_line ≠ sp.pos_line ∨
        t.pos_zero ≠ sp.pos_zero ∨ t.line ≠ sp.line) →
      (t.return_tokenized tok).1.state = .Failed ∧
      (∃ s, (t.return_tokenized tok).2 = some (.Fatal (.InternalError s))) ∧
      ((∃ s, t.parse_error_prev = .InternalError s) →
        (t.return_tokenized tok).1.tokenbuf = t.tokenbuf) ∧
      ((∀ s, t.parse_error_prev ≠ .InternalError s) →
        (t.return_tokenized tok).1.tokenbuf.buf = t.tokenbuf.buf ++ [tok])) := by
  constructor
  · intro hdeliv
    rcases rt_cases t tok with
      ⟨sp2, hsp2, _, e1, e2, e3, e4, e5, _, _⟩ | ⟨hnone, _⟩ | ⟨⟨s, hf⟩, _⟩
    · rw [hsp] at hsp2
      injection hsp2 with hsp2
      subst hsp2
      exact ⟨e1, e2, e3, e4, e5⟩
    · rw [hsp] at hnone
      cases hnone
    · rw [hdeliv] at hf
      injection hf with hf
      subst hf
      simp [Token.span_clone] at hsp
  · intro hmis
    simp only [Tokenizer.return_tokenized, hsp]
    by_cases h1 : t.index ≠ sp.index
    · rw [if_pos h1]
      exact latch_fail_outcome t tok 1549 1559
    · rw [if_neg h1]
      have h2 : t.pos_region ≠ sp.pos_region ∨ t.pos_line ≠ sp.pos_line ∨
          t.pos_zero ≠ sp.pos_zero ∨ t.line ≠ sp.line := by
        rcases hmis with h | h | h | h | h
        · exact absurd h h1
        · exact .inl h
        · exact .inr (.inl h)
        · exact .inr (.inr (.inl h))
        · exact .inr (.inr (.inr h))
      rw [if_pos h2]
      exact latch_fail_outcome t tok 1593 1603

/-- Witness for C1 (amended): on the latched state `exTokC1` the
region-index-mismatching token `exMismatchTok` trips the guard into
`Failed`. -/
theorem C1_amended_witness :
    exMismatchTok.span_clone = some (mkSpan 1 0 0 0 0 1) ∧
    exTokC1.index ≠ (mkSpan 1 0 0 0 0 1).index ∧
    (exTokC1.return_tokenized exMismatchTok).1.state = .Failed := by
  have h := C1_amended exTokC1 exMismatchTok (mkSpan 1 0 0 0 0 1) (by decide)
  exact ⟨by decide, by decide, (h.2 (.inl (by decide))).1⟩

/-- One iterator step, seen by the trace invariants: the pull ends, or a
`Fatal` is delivered, or a token without a span is delivered with the global
offset unchanged, or a span-carrying token is delivered whose span starts at
the current global offset, the offset advancing by the span length. -/
theorem nextToken_trace_step (t : Tokenizer) :
    t.nextToken.2 = none ∨
    (∃ tok, t.nextToken.2 = some tok ∧ tok.isFatal = true) ∨
    (∃ tok, t.nextToken.2 = some tok ∧ tok.span_clone = none ∧
      t.nextToken.1.pos_zero = t.pos_zero) ∨
    (∃ tok sp, t.nextToken.2 = some tok ∧ tok.span_clone = some sp ∧
      sp.pos_zero = t.pos_zero ∧ t.nextToken.1.pos_zero = sp.pos_zero + sp.length) := by
  rcases nextToken_shape t with ⟨t0, tok0, hag, heq⟩ | ⟨hag, hout⟩
  · rcases rt_cases t0 tok0 with
      ⟨sp, hsp, hd, _, _, _, hz, _, hadv, _⟩ | ⟨hsp, hpass⟩ | ⟨⟨s, hf⟩, _⟩
    · refine .inr (.inr (.inr ⟨tok0, sp, ?_, hsp, ?_, ?_⟩))
      · rw [heq]
        exact hd
      · rw [hz]
        exact hag.1
      · rw [heq]
        exact hadv
    · refine .inr (.inr (.inl ⟨tok0, ?_, hsp, ?_⟩))
      · rw [heq, hpass]
      · rw [heq, hpass]
        exact hag.1
    · refine .inr (.inl ⟨.Fatal (.InternalError s), ?_, rfl⟩)
      rw [heq]
      exact hf
  · rcases hout with hnone | ⟨out, ho, hspn⟩
    · exact .inl hnone
    · exact .inr (.inr (.inl ⟨out, ho, hspn, hag.1⟩))

/-- Over any `Fatal`-free pull, the spans of the delivered content-bearing
tokens tile the input contiguously starting at the current global offset. -/
theorem runTokens_contiguous (n : Nat) :
    ∀ t : Tokenizer, noFatal (Tokenizer.runTokens n t) →
      contiguousFrom t.pos_zero (spansOf (Tokenizer.runTokens n t)) := by
  induction n with
  | zero =>
    intro t _
    exact True.intro
  | succ m ih =>
    intro t hnf
    rcases hres : t.nextToken with ⟨t', o⟩
    rcases o with _ | tok
    · have hrun : Tokenizer.runTokens (m + 1) t = [] := by
        unfold Tokenizer.runTokens
        rw [hres]
      rw [hrun]
      exact True.intro
    · have hrun : Tokenizer.runTokens (m + 1) t = tok :: Tokenizer.runTokens m t' := by
        simp only [Tokenizer.runTokens]
        rw [hres]
      rw [hrun] at hnf ⊢
      have hnf' : noFatal (Tokenizer.runTokens m t') :=
        fun x hx => hnf x (List.mem_cons_of_mem _ hx)
      have htokf : tok.isFatal = false := hnf tok (List.mem_cons_self _ _)
      rcases nextToken_trace_step t with hnone | ⟨tok2, h2, hfat⟩ | ⟨tok2, h2, hspn, hpz⟩ |
        ⟨tok2, sp, h2, hspq, hz, hadv⟩
      · rw [hres] at hnone
        cases hnone
      · rw [hres] at h2
        have h2' : some tok = some tok2 := h2
        injection h2' with h2'
        rw [← h2'] at hfat
        rw [hfat] at htokf
        cases htokf
      · rw [hres] at h2 hpz
        have h2' : some tok = some tok2 := h2
        injection h2' with h2'
        subst h2'
        have hpz' : t'.pos_zero = t.pos_zero := hpz
        simp only [spansOf, List.filterMap_cons, hspn]
        rw [← hpz']
        exact ih t' hnf'
      · rw [hres] at h2 hadv
        have h2' : some tok = some tok2 := h2
        injection h2' with h2'
        subst h2'
        have hadv' : t'.pos_zero = sp.pos_zero + sp.length := hadv
        simp only [spansOf, List.filterMap_cons, hspq, contiguousFrom]
        refine ⟨hz, ?_⟩
        rw [← hadv']
        exact ih t' hnf'

/-- C2 (amended): over every `Fatal`-free pull the `pos_zero` values of the
delivered span-carrying tokens are contiguous — each token's `pos_zero`
equals the previous token's `pos_zero` plus the previous token's length,
starting at the tokenizer's current global offset.  (Strict monotonicity
does not hold: zero-length `Defered` tokens repeat an offset, see the
counterexample.) -/
theorem C2_amended (t : Tokenizer) (n : Nat) (h : noFatal (Tokenizer.runTokens n t)) :
    contiguousFrom t.pos_zero (spansOf (Tokenizer.runTokens n t)) :=
  runTokens_contiguous n t h

/-- Witness for C2 (amended): the input `"X\nY"` tokenizes without `Fatal`
into a contiguous span chain from offset 0. -/
theorem C2_amended_witness :
    noFatal (Tokenizer.runTokens 4 exTokXnY) ∧
    contiguousFrom exTokXnY.pos_zero (spansOf (Tokenizer.runTokens 4 exTokXnY)) :=
  ⟨by decide, C2_amended exTokXnY 4 (by decide)⟩

/-- One iterator step leaves the snapshot stack and region index unchanged,
or pops one snapshot and decrements the index together. -/
theorem nextToken_snapShape (t : Tokenizer) : snapShape t t.nextToken.1 := by
  rcases nextToken_shape t with ⟨t0, tok0, hag, heq⟩ | ⟨hag, _⟩
  · rcases rt_cases t0 tok0 with
      ⟨sp, _, _, _, _, _, _, _, _, hshape⟩ | ⟨_, hpass⟩ | ⟨_, hshape⟩
    · rw [heq]
      exact snapShape_congr hag.2.2 hag.2.1 hshape
    · rw [heq, hpass]
      exact snapShape_congr hag.2.2 hag.2.1 (.inl ⟨rfl, rfl⟩)
    · rw [heq]
      exact snapShape_congr hag.2.2 hag.2.1 hshape
  · exact .inl ⟨hag.2.2, hag.2.1⟩

/-- One iterator step preserves the snapshot-accounting invariant. -/
theorem Jinv_step {t : Tokenizer} (h : Jinv t) : Jinv t.nextToken.1 := by
  rcases nextToken_snapShape t with ⟨h1, h2⟩ | ⟨h0, h1, h2⟩
  · unfold Jinv at *
    rw [h1, h2]
    exact h
  · unfold Jinv at *
    omega

/-- Any number of iterator steps preserves the snapshot-accounting
invariant. -/
theorem iterate_Jinv (k : Nat) : ∀ t : Tokenizer, Jinv t → Jinv (Tokenizer.iterate k t) := by
  induction k with
  | zero =>
    intro t h
    exact h
  | succ m ih =>
    intro t h
    exact ih _ (Jinv_step h)

/-- `src_push` pushes one snapshot, one region, and points the index at the
new top region. -/
theorem src_push_account (t : Tokenizer) (f : Option (List Byte)) (b : List Byte)
    (h : regionAccount t) : regionAccount ((t.src_push f b).1) := by
  obtain ⟨h1, h2⟩ := h
  unfold regionAccount Tokenizer.src_push
  dsimp only
  rcases t.state <;> refine ⟨?_, ?_⟩ <;> simp <;> omega

/-- `src_push` grows the region stack by exactly one. -/
theorem src_push_region_len (t : Tokenizer) (f : Option (List Byte)) (b : List Byte) :
    ((t.src_push f b).1).region.length = t.region.length + 1 := by
  unfold Tokenizer.src_push
  dsimp only
  rcases t.state <;> simp

/-- `pushAll` preserves the push bookkeeping. -/
theorem pushAll_account : ∀ (bufs : List (List Byte)) (t : Tokenizer),
    regionAccount t → regionAccount (t.pushAll bufs)
  | [], _, h => h
  | b :: rest, t, h => pushAll_account rest _ (src_push_account t none b h)

/-- `pushAll` grows the region stack by the number of pushed buffers. -/
theorem pushAll_region_len : ∀ (bufs : List (List Byte)) (t : Tokenizer),
    (t.pushAll bufs).region.length = t.region.length + bufs.length := by
  intro bufs
  induction bufs with
  | nil =>
    intro t
    rfl
  | cons b rest ih =>
    intro t
    have := ih (t.src_push none b).1
    rw [src_push_region_len] at this
    unfold Tokenizer.pushAll
    rw [this]
    simp only [List.length_cons]
    omega

/-- C5 (amended): after `N ≥ 1` `src_push` calls, at every point of the
iteration the snapshot stack holds exactly `index + 1` entries — so full
tokenization performs `N - 1` pops without error, the base region's
snapshot is never popped, and the stack ends at length 1 (not empty) once
the index has returned to the base region. -/
theorem C5_amended (bufs : List (List Byte)) (k : Nat) (hne : bufs ≠ []) :
    (Tokenizer.iterate k (Tokenizer.new.pushAll bufs)).state_snap.length =
      (Tokenizer.iterate k (Tokenizer.new.pushAll bufs)).index + 1 := by
  have hacc := pushAll_account bufs Tokenizer.new ⟨rfl, rfl⟩
  have hlen := pushAll_region_len bufs Tokenizer.new
  have h0 : Tokenizer.new.region.length = 0 := rfl
  have hne' : 0 < bufs.length := List.length_pos.mpr hne
  have hJ : Jinv (Tokenizer.new.pushAll bufs) := by
    unfold Jinv
    obtain ⟨a1, a2⟩ := hacc
    omega
  exact iterate_Jinv k _ hJ

/-- Witness for C5 (amended): two pushes, drained for six steps. -/
theorem C5_amended_witness :
    ([[0x41], [0x42]] : List (List Byte)) ≠ [] ∧
    (Tokenizer.iterate 6 (Tokenizer.new.pushAll [[0x41], [0x42]])).state_snap.length =
      (Tokenizer.iterate 6 (Tokenizer.new.pushAll [[0x41], [0x42]])).index + 1 :=
  ⟨by decide, C5_amended [[0x41], [0x42]] 6 (by decide)⟩

/-- C10: `span_slice` is a total pure read.  On every reachable tokenizer
(no input yet, or at least one pushed region) it returns `none` exactly when
no input was ever pushed (`ExpectInput`), the span's region index is beyond
the region stack, or the in-region offset plus length overruns that region;
otherwise it returns `some` of exactly the addressed bytes. -/
theorem C10_span_slice_total (t : Tokenizer) (span : Span)
    (h : t.state = .ExpectInput ∨ 1 ≤ t.region.length) :
    (t.span_slice span = none ↔
      (t.state = .ExpectInput ∨ t.region.length ≤ span.index ∨
        (t.region.getD span.index []).length < span.pos_region + span.length)) ∧
    (∀ bs, t.span_slice span = some bs →
      bs = ((t.region.getD span.index []).drop span.pos_region).take span.length ∧
      bs.length = span.length) := by
  have hlen : t.state = .ExpectInput ∨ 1 ≤ t.region.length := h
  unfold Tokenizer.span_slice
  rcases hst : t.state with _ | _ | _ | _
  · refine ⟨?_, ?_⟩
    · constructor
      · intro _
        exact .inl rfl
      · intro _
        rfl
    · intro bs hbs
      cases hbs
  all_goals (
    have hreg : 1 ≤ t.region.length := by
      rcases hlen with hx | hx
      · rw [hst] at hx
        cases hx
      · exact hx
    by_cases h1 : t.region.length - 1 < span.index
    · rw [if_pos h1]
      refine ⟨⟨fun _ => .inr (.inl (by omega)), fun _ => rfl⟩, ?_⟩
      intro bs hbs
      cases hbs
    · rw [if_neg h1]
      dsimp only
      by_cases h2 : (t.region.getD span.index []).length + 1 ≤ span.pos_region + span.length
      · rw [if_pos h2]
        refine ⟨⟨fun _ => .inr (.inr (by omega)), fun _ => rfl⟩, ?_⟩
        intro bs hbs
        cases hbs
      · rw [if_neg h2]
        refine ⟨⟨fun hx => ?_, fun hx => ?_⟩, ?_⟩
        · cases hx
        · rcases hx with hx | hx | hx
          · cases hx
          · exact absurd hx (by omega)
          · exact absurd hx (by omega)
        · intro bs hbs
          injection hbs with hbs
          subst hbs
          refine ⟨rfl, ?_⟩
          simp only [List.length_take, List.length_drop]
          omega)

/-- Witness for C10: on the `"X\nY"` tokenizer, the out-of-range span at
in-region offset 9 resolves to `none` via the range check. -/
theorem C10_span_slice_total_witness :
    (exTokXnY.state = .ExpectInput ∨ 1 ≤ exTokXnY.region.length) ∧
    (exTokXnY.span_slice (mkSpan 0 9 0 0 0 1) = none ↔
      (exTokXnY.state = .ExpectInput ∨
        exTokXnY.region.length ≤ (mkSpan 0 9 0 0 0 1).index ∨
        (exTokXnY.region.getD (mkSpan 0 9 0 0 0 1).index []).length <
          (mkSpan 0 9 0 0 0 1).pos_region + (mkSpan 0 9 0 0 0 1).length)) :=
  ⟨by decide, (C10_span_slice_total exTokXnY (mkSpan 0 9 0 0 0 1) (by decide)).1⟩

end SnailSpec
